import Mathlib

/-!
Verification of the natural-language specification of the gcloud-agent
repository against a shallow embedding of its three Python source files:

* `src/gpt5pro/main.py`            — deterministic index/match/render generator
* `src/claude45sonnet/main.py`     — LLM-backed generator with help validation
* `src/gpt5pro/simplified/main.py` — keyword-to-template generator

Python strings are embedded as Lean `String`/`List Char`; machine-level
details (unicode beyond ASCII for case folding and character classes) are
embedded over the ASCII fragment, which is all the repository exercises.
External effects (subprocess invocations of `gcloud`, the Gemini API, and
the stdlib functions `shlex.split` and `difflib.SequenceMatcher.ratio`)
are modelled as explicit oracle parameters passed to the embedded
functions; all repository-owned logic is embedded directly from the source.
-/

/-! ## Shared Python string primitives -/

/-- Python whitespace (`str.strip`, `str.split`, and the regex class `\s`),
restricted to the ASCII fragment. -/
def pySpace (c : Char) : Bool :=
  c == ' ' || c == '\t' || c == '\n' || c == '\r' || c == '\x0b' || c == '\x0c'

/-- Regex word character `\w` (ASCII fragment): letters, digits, underscore. -/
def wordChar (c : Char) : Bool := c.isAlphanum || c == '_'

/-- Lowercase letter or digit, the class `[a-z0-9]`. -/
def lower09 (c : Char) : Bool := c.isLower || c.isDigit

/-- Python `str.lower()` (ASCII fragment). -/
def pyLower (s : String) : String := String.mk (s.data.map Char.toLower)

/-- Drop trailing characters satisfying `p`. -/
def dropTrail (p : Char → Bool) (l : List Char) : List Char :=
  (l.reverse.dropWhile p).reverse

/-- Python `str.strip()` on character lists. -/
def pyStripL (l : List Char) : List Char := dropTrail pySpace (l.dropWhile pySpace)

/-- Python `str.strip()`. -/
def pyStrip (s : String) : String := String.mk (pyStripL s.data)

/-- Python `str.split(sep="\n")` behaviour on character lists: split at every
newline, keeping empty pieces (`"".split("\n") == [""]`). -/
def splitNlL : List Char → List (List Char)
  | [] => [[]]
  | c :: rest =>
    if c = '\n' then [] :: splitNlL rest
    else
      match splitNlL rest with
      | [] => [[c]]
      | l :: ls => (c :: l) :: ls

/-- Fuel-driven splitter for Python `str.split()` with no argument: tokens are
maximal runs of characters on which `sep` is false, empties dropped.  The fuel
is instantiated with the length of the input, which bounds the recursion. -/
def pySplitAux (sep : Char → Bool) : Nat → List Char → List (List Char)
  | 0, _ => []
  | _ + 1, [] => []
  | fuel + 1, c :: rest =>
    if sep c then pySplitAux sep fuel rest
    else
      (c :: rest.takeWhile (fun d => !sep d)) ::
        pySplitAux sep fuel (rest.dropWhile (fun d => !sep d))

/-- Python `str.split()` (split on whitespace runs, dropping empties). -/
def pySplit (s : String) : List String :=
  (pySplitAux pySpace s.data.length s.data).map String.mk

/-- Python `sep.join(strings)`. -/
def joinWith (sep : String) : List String → String
  | [] => ""
  | [x] => x
  | x :: y :: xs => x ++ sep ++ joinWith sep (y :: xs)

/-- Python substring containment `needle in hay`. -/
def pyIn (needle hay : String) : Bool :=
  hay.data.tails.any (fun t => needle.data.isPrefixOf t)

/-- Python `s.startswith(pre)`. -/
def pyStartsWith (s pre : String) : Bool := pre.data.isPrefixOf s.data

/-- Strict lexicographic comparison of character lists by code point, the
order imposed by Python string `<`. -/
def lexLt : List Char → List Char → Bool
  | [], [] => false
  | [], _ :: _ => true
  | _ :: _, [] => false
  | a :: as, b :: bs => if a < b then true else if a = b then lexLt as bs else false

/-- Insert into an ascending list, used to embed Python `sorted`. -/
def insStr (x : String) : List String → List String
  | [] => [x]
  | y :: ys => if lexLt y.data x.data then y :: insStr x ys else x :: y :: ys

/-- Python `sorted` on lists of strings (insertion sort; the inputs it is
applied to are first deduplicated, so stability is irrelevant). -/
def sortStrs (l : List String) : List String := l.foldr insStr []

/-! ## Embedding of `src/gpt5pro/main.py` -/

namespace GPT5Pro

/-- The `GCLOUD_WIDE_FLAGS` from the source (a Python `set`; embedded as a list,
only membership and sorted views are used). -/
def GCLOUD_WIDE_FLAGS : List String :=
  ["--project", "--quiet", "--format", "--verbosity", "--account", "--configuration"]

/-- The `VERB_SYNONYMS` normalization map (insertion order of the dict). -/
def VERB_SYNONYMS : List (String × String) :=
  [("get", "describe"), ("show", "describe"), ("details", "describe"),
   ("describe", "describe"), ("inspect", "describe"), ("fetch", "describe"),
   ("list", "list"), ("ls", "list"), ("enumerate", "list"),
   ("create", "create"), ("make", "create"), ("new", "create"),
   ("deploy", "deploy"), ("apply", "update"), ("update", "update"),
   ("patch", "update"), ("set", "update"),
   ("delete", "delete"), ("remove", "delete"), ("rm", "delete")]

/-- The `RESOURCE_SYNONYMS` normalization map (insertion order of the dict). -/
def RESOURCE_SYNONYMS : List (String × String) :=
  [("cloudrun", "run"), ("cloud run", "run"), ("service", "services"),
   ("services", "services"), ("revision", "revisions"), ("revisions", "revisions"),
   ("job", "jobs"), ("jobs", "jobs"),
   ("compute engine", "compute"), ("vm", "instances"), ("vms", "instances"),
   ("instance", "instances"), ("instances", "instances"),
   ("firewall", "firewall-rules"), ("firewalls", "firewall-rules"),
   ("disk", "disks"), ("disks", "disks"), ("image", "images"), ("images", "images"),
   ("router", "routers"), ("routers", "routers"), ("mig", "instance-groups"),
   ("project", "projects"), ("projects", "projects"),
   ("service account", "service-accounts"), ("service accounts", "service-accounts"),
   ("iam", "iam"),
   ("pubsub", "pubsub"), ("topic", "topics"), ("topics", "topics"),
   ("subscription", "subscriptions"), ("subscriptions", "subscriptions"),
   ("gcs", "storage"), ("storage bucket", "buckets"), ("bucket", "buckets"),
   ("buckets", "buckets"),
   ("artifact", "artifacts"), ("artifacts", "artifacts"),
   ("secret", "secrets"), ("secrets", "secrets"),
   ("cloud build", "builds"), ("build", "builds"), ("builds", "builds")]

/-- Character of the class `[\w\-]`, the complement of `TOKEN_SPLIT_RE`. -/
def tokChar (c : Char) : Bool := wordChar c || c == '-'

/-- The `tokenize`: split on runs of non-`[\w-]` characters, drop empties,
lowercase each token. -/
def tokenize (text : String) : List String :=
  (pySplitAux (fun c => !tokChar c) text.data.length text.data).map
    (fun l => String.mk (l.map Char.toLower))

/-- The `canonicalize_tokens`: apply verb then resource synonym maps. -/
def canonicalize_tokens (tokens : List String) : List String :=
  tokens.map (fun t =>
    match VERB_SYNONYMS.find? (fun p => p.1 = t) with
    | some p => p.2
    | none =>
      match RESOURCE_SYNONYMS.find? (fun p => p.1 = t) with
      | some p => p.2
      | none => t)

/-- The `CommandSpec` dataclass. -/
structure CommandSpec where
  path : String
  release : String
  flags : List String
  positionals : List String
  help_one_line : String := ""
deriving DecidableEq

/-- Flag-name character `[a-z0-9\-]` of the FLAGS-section regex. -/
def gFlagChar (c : Char) : Bool := lower09 c || c == '-'

/-- Regex word boundary `\b` between a last matched character and the
following character (`none` = end of input). -/
def boundaryAfter (l : Char) (n : Option Char) : Bool :=
  match n with
  | none => wordChar l
  | some d => wordChar l != wordChar d

/-- The group of `re.match(r"\s+(--[a-z0-9][a-z0-9\-]*)\b", s)` after the
mandatory whitespace and `--c` have been consumed: take the longest prefix of
the `[a-z0-9\-]*` run after which a word boundary holds (regex backtracking). -/
def flagMatchGroup (c : Char) (cs : List Char) : Option (List Char) :=
  let body := cs.takeWhile gFlagChar
  let rem := cs.drop body.length
  match (List.range (body.length + 1)).reverse.find? (fun k =>
      boundaryAfter ((body.take k).getLastD c)
        (match body.get? k with
         | some d => some d
         | none => rem.head?)) with
  | some k => some ('-' :: '-' :: c :: body.take k)
  | none => none

/-- Full embedding of `re.match(r"\s+(--[a-z0-9][a-z0-9\-]*)\b", s)`,
returning the captured group. -/
def matchWsFlag (s : List Char) : Option String :=
  let ws := s.takeWhile pySpace
  if ws.isEmpty then none
  else
    match s.dropWhile pySpace with
    | '-' :: '-' :: c :: cs =>
      if lower09 c then (flagMatchGroup c cs).map String.mk else none
    | _ => none

/-- A help line matching `^FLAGS\b` (start of the FLAGS-section regex). -/
def isFlagsHeaderLine (l : List Char) : Bool :=
  "FLAGS".data.isPrefixOf l &&
    (match l.drop 5 with
     | [] => true
     | d :: _ => !wordChar d)

/-- A line starting with a `\w` character (terminates the `[\s\S]+?` group of
the FLAGS-section regex via `^\w`). -/
def startsWordLine (l : List Char) : Bool :=
  match l with
  | [] => false
  | c :: _ => wordChar c

/-- The FLAGS-section scan shared by `parse_help_for_command` (lines 309-317)
and `validate_command_string` (lines 477-482): locate the block captured by
`re.search(r"^FLAGS\b.*?$([\s\S]+?)^\w", out, re.MULTILINE)` and run
`re.match(r"\s+(--[a-z0-9][a-z0-9\-]*)\b", line.strip())` on each of its
lines, collecting the groups.  Note the source strips each line before
matching a pattern whose first element is mandatory whitespace. -/
def scrapeFlagsFromHelp (out : String) : List String :=
  let lines := splitNlL out.data
  match lines.findIdx? isFlagsHeaderLine with
  | none => []
  | some i =>
    let after := lines.drop (i + 1)
    match after.findIdx? startsWordLine with
    | none => []
    | some j => (after.take j).filterMap (fun l => matchWsFlag (pyStripL l))

/-- The `flags` field computed by `parse_help_for_command`:
`sorted(set(flags) | GCLOUD_WIDE_FLAGS)`. -/
def parseHelpFlags (out : String) : List String :=
  sortStrs ((scrapeFlagsFromHelp out ++ GCLOUD_WIDE_FLAGS).dedup)

/-- The verb set of `score_candidate`. -/
def VERBS : List String := ["describe", "list", "create", "delete", "update", "deploy"]

/-- The `score_candidate`, with `difflib.SequenceMatcher(...).ratio` modelled as
the oracle parameter `smr` (an external stdlib function; the score arithmetic
is embedded over `ℚ`). -/
def score_candidate (smr : String → String → ℚ)
    (prompt_tokens : List String) (candidate_path : String) : ℚ :=
  let path_tokens := pySplit candidate_path
  let prompt_verbs := VERBS.filter (fun v => prompt_tokens.contains v)
  let path_verb := path_tokens.filter (fun t => VERBS.contains t)
  let verb_bonus : ℚ :=
    if prompt_verbs ≠ [] ∧ path_verb ≠ [] ∧ prompt_verbs.contains (path_verb.headD "")
    then 0.5
    else if path_verb ≠ [] ∧ prompt_verbs ≠ [] then 0.35
    else 0
  let pt := (prompt_tokens.filter (fun t => !VERBS.contains t)).toFinset
  let ct := (path_tokens.filter (fun t => !VERBS.contains t)).toFinset
  let jacc : ℚ := ((pt ∩ ct).card : ℚ) / ((max 1 (pt ∪ ct).card : ℕ) : ℚ)
  let fuzzy := smr (joinWith " " prompt_tokens) candidate_path
  0.55 * jacc + 0.35 * fuzzy + verb_bonus

/-- Stable insertion into a descending-by-score list (`list.sort(key=score,
reverse=True)` is a stable descending sort). -/
def insDesc (x : CommandSpec × ℚ) : List (CommandSpec × ℚ) → List (CommandSpec × ℚ)
  | [] => [x]
  | y :: ys => if y.2 < x.2 then x :: y :: ys else y :: insDesc x ys

/-- Stable descending sort by score. -/
def sortDesc (l : List (CommandSpec × ℚ)) : List (CommandSpec × ℚ) :=
  l.foldr insDesc []

/-- The `choose_candidates`: score every index entry, sort descending, take
`topk`.  The index dict is embedded as an association list in insertion
order. -/
def choose_candidates (smr : String → String → ℚ)
    (index : List (String × CommandSpec)) (prompt : String) (topk : Nat) :
    List (CommandSpec × ℚ) :=
  (sortDesc (index.map (fun ps =>
    (ps.2, score_candidate smr (canonicalize_tokens (tokenize prompt)) ps.1)))).take topk

/-- The `preferred_flags` of `render_command`. -/
def PREFERRED_FLAGS : List String := ["--region", "--zone", "--location", "--project"]

/-- The placeholder dict of `render_command` with its `.get(fl, "<VALUE>")`
default. -/
def placeholderFor (fl : String) : String :=
  if fl = "--region" then "<REGION>"
  else if fl = "--zone" then "<ZONE>"
  else if fl = "--location" then "<LOCATION>"
  else if fl = "--project" then "<PROJECT_ID>"
  else "<VALUE>"

/-- The final `--format=json` step of `render_command`: appended when the
command supports `--format` and no token so far starts with `--format`. -/
def renderFormatStep (spec : CommandSpec) (cmd : List String) : List String :=
  if spec.flags.contains "--format" && cmd.all (fun a => !pyStartsWith a "--format")
  then cmd ++ ["--format=json"] else cmd

/-- The `render_command`: the successively extended `cmd` list of the source,
written as one expression (base tokens, then the preferred-flag loop, then
the format step), joined with spaces. -/
def render_command (spec : CommandSpec) : String :=
  joinWith " " (renderFormatStep spec
    (PREFERRED_FLAGS.foldl
      (fun acc fl =>
        if spec.flags.contains fl then acc ++ [fl ++ "=" ++ placeholderFor fl] else acc)
      ((if spec.release = "beta" ∨ spec.release = "alpha"
        then ["gcloud"] ++ [spec.release] else ["gcloud"])
        ++ pySplit spec.path
        ++ (spec.positionals.take 2).map (fun pos => "<" ++ pyLower pos ++ ">"))))

/-- Python `repr` of a list of strings, as interpolated by `f"{base!r}"`. -/
def pyReprList (l : List String) : String :=
  "[" ++ joinWith ", " (l.map (fun s => "\x27" ++ s ++ "\x27")) ++ "]"

/-- The base-command extraction of `validate_command_string`: tokens up to the
first one starting with `<` or `--`. -/
def vcsBase (toks : List String) : List String :=
  toks.takeWhile (fun t => !pyStartsWith t "<" && !pyStartsWith t "--")

/-- The `t.split("=", 1)[0]`. -/
def keyOf (t : String) : String := String.mk (t.data.takeWhile (fun c => c != '='))

/-- The unknown-flag collection of `validate_command_string`. -/
def vcsUnknown (toks flags : List String) : List String :=
  ((toks.filter (fun t => pyStartsWith t "--")).map keyOf).filter
    (fun k => !flags.contains k)

/-- The `validate_command_string`, with the stdlib tokenizer `shlex.split`
modelled as the oracle `slex` and the subprocess runner `run` modelled as an
oracle from argument vectors to `(returncode, stdout, stderr)`. -/
def validate_command_string (slex : String → List String)
    (run : List String → Nat × String × String) (cmd_str : String) : Bool × String :=
  if (run (vcsBase (slex cmd_str) ++ ["--help"])).1 != 0 then
    (false, "gcloud help failed for " ++ pyReprList (vcsBase (slex cmd_str)) ++ ": " ++
      (if (run (vcsBase (slex cmd_str) ++ ["--help"])).2.2 != "" then
        (run (vcsBase (slex cmd_str) ++ ["--help"])).2.2
       else (run (vcsBase (slex cmd_str) ++ ["--help"])).2.1))
  else
    match vcsUnknown (slex cmd_str)
        (GCLOUD_WIDE_FLAGS ++
          scrapeFlagsFromHelp (run (vcsBase (slex cmd_str) ++ ["--help"])).2.1) with
    | [] => (true, "OK")
    | a :: as =>
      (false, "Unknown flags for " ++ pyReprList (vcsBase (slex cmd_str)) ++ ": " ++
        joinWith ", " (sortStrs (a :: as).dedup))

/-- Claim-side reading of the FLAGS-section scraper (from the specification
words, for comparison with `scrapeFlagsFromHelp`): the tokens of the form
`--name` that lead the indented lines between the `FLAGS` header line and the
next line beginning at column zero. -/
def specFlagsSection (out : String) : List String :=
  let lines := splitNlL out.data
  match lines.findIdx? (fun l => "FLAGS".data.isPrefixOf l) with
  | none => []
  | some i =>
    let after := lines.drop (i + 1)
    let between :=
      after.takeWhile (fun l =>
        match l with
        | [] => true
        | c :: _ => pySpace c)
    between.filterMap (fun l =>
      let rest := l.dropWhile pySpace
      match rest with
      | '-' :: '-' :: c :: cs =>
        if gFlagChar c then some (String.mk ('-' :: '-' :: c :: cs.takeWhile gFlagChar))
        else none
      | _ => none)

/-- Claim-side Jaccard overlap of non-verb tokens (from the claim words). -/
def specJaccard (pts pths : List String) : ℚ :=
  let a := (pts.filter (fun t => !VERBS.contains t)).toFinset
  let b := (pths.filter (fun t => !VERBS.contains t)).toFinset
  ((a ∩ b).card : ℚ) / ((max 1 (a ∪ b).card : ℕ) : ℚ)

/-- Claim-side verb bonus (from the claim words): 0.5 when the leading verb
of the path is among the verbs of the prompt, 0.35 when both prompt and path
contain some verb, 0 otherwise. -/
def specVerbBonus (pts pths : List String) : ℚ :=
  match pths.find? (fun t => VERBS.contains t) with
  | some v =>
    if pts.contains v then 0.5
    else if VERBS.any (fun w => pts.contains w) then 0.35
    else 0
  | none => 0

/-- Claim-side shape of `render_command` (from the claim words): the emitted
tokens in order — `gcloud`, the release only when beta or alpha, the path
tokens, at most the first two positionals lowercased in angle brackets, and
the supported preferred flags with their canonical placeholders. -/
def shapeFront (spec : CommandSpec) : List String :=
  ["gcloud"]
  ++ (if spec.release = "beta" ∨ spec.release = "alpha" then [spec.release] else [])
  ++ pySplit spec.path
  ++ (spec.positionals.take 2).map (fun pos => "<" ++ pyLower pos ++ ">")
  ++ (if spec.flags.contains "--region" then ["--region=<REGION>"] else [])
  ++ (if spec.flags.contains "--zone" then ["--zone=<ZONE>"] else [])
  ++ (if spec.flags.contains "--location" then ["--location=<LOCATION>"] else [])
  ++ (if spec.flags.contains "--project" then ["--project=<PROJECT_ID>"] else [])

/-- Claim-side shape of `render_command` (from the claim words): the front
tokens with `--format=json` appended when supported and not already present
among the earlier tokens. -/
def specRenderShape (spec : CommandSpec) : String :=
  joinWith " "
    (shapeFront spec ++
      (if spec.flags.contains "--format" &&
          (shapeFront spec).all (fun a => !pyStartsWith a "--format")
       then ["--format=json"] else []))

end GPT5Pro

/-! ## Embedding of `src/claude45sonnet/main.py` -/

namespace Claude45

/-- Character class `[\w-]` of the flag regex in `_validate_full_command`. -/
def flagChar (c : Char) : Bool := wordChar c || c == '-'

/-- Fuel-driven embedding of `re.findall(r"--[\w-]+", command)`: leftmost
non-overlapping scan; at a match consume the greedy token, otherwise advance
one character.  Fuel is instantiated with the input length, which bounds the
number of scan steps. -/
def findallAux : Nat → List Char → List String
  | 0, _ => []
  | _ + 1, [] => []
  | fuel + 1, c :: rest =>
    if c = '-' then
      match rest with
      | d :: e :: rest2 =>
        if d = '-' && flagChar e then
          String.mk ('-' :: '-' :: e :: rest2.takeWhile flagChar) ::
            findallAux fuel (rest2.dropWhile flagChar)
        else findallAux fuel rest
      | _ => findallAux fuel rest
    else findallAux fuel rest

/-- The `re.findall(r"--[\w-]+", command)`. -/
def findallFlags (s : String) : List String := findallAux s.data.length s.data

/-- The `flag.split("=")[0]`. -/
def splitEqHead (flag : String) : String :=
  String.mk (flag.data.takeWhile (fun c => c != '='))

/-- The `_validate_full_command`: every `--flag` token found in the command must
occur as a substring of the help text. -/
def _validate_full_command (command help_text : String) : Bool × String :=
  match ((findallFlags command).map splitEqHead).filter (fun fn => !pyIn fn help_text) with
  | [] => (true, "Command syntax is valid")
  | a :: as => (false, "Invalid flags: " ++ joinWith ", " (a :: as))

/-- The `gcloud` prefix stripping at the top of the syntax validator. -/
def stripLeadingGcloud (command : String) : String :=
  if pyStartsWith (pyStrip command) "gcloud"
  then pyStrip (String.mk ((pyStrip command).data.drop 6))
  else command

/-- The candidate prefixes probed by the loop `for i in range(1, len(parts)+1)`:
for each `i`, the non-flag tokens of `parts[:i]`; empty candidate lists are
skipped by the `continue`. -/
def candPrefixes (parts : List String) : List (List String) :=
  ((List.range' 1 parts.length).map
    (fun i => (parts.take i).filter (fun p => !pyStartsWith p "-"))).filter
    (fun l => !l.isEmpty)

/-- The candidates actually probed: every failing candidate, up to and
including the first one whose help lookup succeeds. -/
def probed (help : String → Bool × String) : List (List String) → List (List String)
  | [] => []
  | c :: rest =>
    if (help (joinWith " " c)).1 then [c] else c :: probed help rest

/-- The probing loop body of the syntax validator. -/
def loopResult (help : String → Bool × String) (command : String) :
    List (List String) → Bool × String
  | [] => (false, "Invalid gcloud command structure: " ++ command)
  | c :: rest =>
    if (help (joinWith " " c)).1 then _validate_full_command command (help (joinWith " " c)).2
    else loopResult help command rest

/-- The `_validate_command_syntax`, with `_get_gcloud_help` modelled as the
oracle `help` from a partial command string to `(success, help_text)`. -/
def _validate_command_structure (help : String → Bool × String)
    (command0 : String) : Bool × String :=
  if (pySplit (stripLeadingGcloud command0)).isEmpty then (false, "Empty command")
  else
    loopResult help (stripLeadingGcloud command0)
      (candPrefixes (pySplit (stripLeadingGcloud command0)))

/-- First substitution of `_clean_command`:
`re.sub(r"```(?:bash|shell)?\n?", "", command)` as a leftmost,
non-overlapping, greedy scan.  Fuel-driven (each step consumes at least one
character, so the input length bounds the recursion; the wrapper instantiates
the fuel with exactly the length). -/
def stripBTAux : Nat → List Char → List Char
  | 0, l => l
  | _ + 1, [] => []
  | fuel + 1, c :: rest =>
    if c = '\x60' ∧ rest.take 2 = ['\x60', '\x60'] then
      let r1 := rest.drop 2
      let r2 := if r1.take 4 = "bash".data then r1.drop 4
                else if r1.take 5 = "shell".data then r1.drop 5
                else r1
      let r3 := if r2.take 1 = ['\n'] then r2.drop 1 else r2
      stripBTAux fuel r3
    else c :: stripBTAux fuel rest

/-- The `re.sub(r"```(?:bash|shell)?\n?", "", command)`. -/
def stripBT (l : List Char) : List Char := stripBTAux l.length l

/-- Second substitution of `_clean_command`: `re.sub(r"```", "", command)`. -/
def stripBT3 : List Char → List Char
  | '\x60' :: '\x60' :: '\x60' :: rest => stripBT3 rest
  | c :: rest => c :: stripBT3 rest
  | [] => []

/-- Third substitution of `_clean_command`: `re.sub(r"^[$#]\s*", "", command)`
(no MULTILINE flag, so only a match at the very start of the string). -/
def stripDollarHash : List Char → List Char
  | [] => []
  | c :: rest =>
    if c = '$' ∨ c = '#' then rest.dropWhile pySpace else c :: rest

/-- The three-backtick sequence matched by the code-block substitutions. -/
def tripleBT : List Char := ['\x60', '\x60', '\x60']

/-- A character list with no occurrence of three consecutive backticks. -/
def noTriple (l : List Char) : Prop := ¬ tripleBT <:+: l

/-- The nonempty stripped lines of `_clean_command`
(`[line.strip() for line in command.split("\n") if line.strip()]`). -/
def cleanLines (c3 : List Char) : List (List Char) :=
  ((splitNlL c3).map pyStripL).filter (fun l => !l.isEmpty)

/-- The line selection of `_clean_command`: the first line starting with
`gcloud`, else the first nonempty line, else the stripped remainder. -/
def cleanCore (c3 : List Char) : List Char :=
  match (cleanLines c3).find? (fun l => "gcloud".data.isPrefixOf l) with
  | some l => l
  | none =>
    match cleanLines c3 with
    | l :: _ => l
    | [] => pyStripL c3

/-- The `_clean_command` on character lists: the three substitutions followed by
the line selection. -/
def cleanL (s : List Char) : List Char :=
  cleanCore (stripDollarHash (stripBT3 (stripBT s)))

/-- The `_clean_command`. -/
def _clean_command (command : String) : String := String.mk (cleanL command.data)

/-- The base prompt literal of `_create_generation_prompt`. -/
def basePromptOf (user_prompt : String) : String :=
  "You are an expert in Google Cloud Platform and gcloud CLI commands.\n\nGenerate a syntactically correct gcloud command based on this request:\n"
  ++ user_prompt ++
  "\n\nCRITICAL RULES:\n1. Output ONLY the gcloud command, nothing else\n2. Use placeholders for actual values:\n   - PROJECT_ID for project IDs\n   - SERVICE_NAME for service names\n   - REGION for regions (or use \x27us-central1\x27 as default)\n   - INSTANCE_NAME for instance names\n   - etc.\n3. Ensure the command uses correct gcloud syntax\n4. Use the most common and stable command structure\n5. Include essential flags only\n6. Do NOT add explanations, markdown, or code blocks\n\nExample format:\ngcloud run services describe SERVICE_NAME --project=PROJECT_ID --region=REGION\n\n"

/-- The error continuation appended by `_create_generation_prompt` when a
previous error exists. -/
def errSuffixOf (previous_error : String) : String :=
  "\nPREVIOUS ATTEMPT FAILED with error:\n" ++ previous_error ++
  "\n\nPlease correct the command and try again.\n"

/-- The `_create_generation_prompt`. -/
def _create_generation_prompt (user_prompt : String) (previous_error : Option String) :
    String :=
  match previous_error with
  | none => basePromptOf user_prompt
  | some e => basePromptOf user_prompt ++ errSuffixOf e

/-- The result dictionary of `generate_command`.  The success dictionary has
keys `success`, `command`, `message`, `iterations`; the failure dictionary has
`success`, `command`, `message`, `last_error`.  Absent keys are `none`. -/
structure GenResult where
  success : Bool
  command : Option String
  message : String
  iterations : Option Nat
  last_error : Option (Option String)
deriving DecidableEq

/-- One Gemini call per iteration, modelled as an oracle from the iteration
number and the prompt to either a raised exception message (`Except.error`) or
the stripped-to-be response text (`Except.ok`). -/
def genLoop (help : String → Bool × String) (gen : Nat → String → Except String String)
    (user : String) (n : Nat) : List Nat → Option String → GenResult
  | [], prev =>
    ⟨false, none, "Failed to generate valid command after " ++ toString n ++ " attempts",
      none, some prev⟩
  | i :: rest, prev =>
    match gen i (_create_generation_prompt user prev) with
    | .error e => genLoop help gen user n rest (some e)
    | .ok text =>
      if (_validate_command_structure help (_clean_command (pyStrip text))).1 then
        ⟨true, some (_clean_command (pyStrip text)),
          "Command generated and validated successfully", some (i + 1), none⟩
      else
        genLoop help gen user n rest
          (some (_validate_command_structure help (_clean_command (pyStrip text))).2)

/-- The `generate_command` with `max_iterations = n`. -/
def generate_command (help : String → Bool × String)
    (gen : Nat → String → Except String String) (user : String) (n : Nat) : GenResult :=
  genLoop help gen user n (List.range n) none

/-- The `previous_error` state before iteration `i` of `generate_command`. -/
def prevErrAt (help : String → Bool × String) (gen : Nat → String → Except String String)
    (user : String) : Nat → Option String
  | 0 => none
  | i + 1 =>
    match gen i (_create_generation_prompt user (prevErrAt help gen user i)) with
    | .error e => some e
    | .ok text =>
      some (_validate_command_structure help (_clean_command (pyStrip text))).2

/-- Whether iteration `i` of `generate_command` validates. -/
def validatesAt (help : String → Bool × String) (gen : Nat → String → Except String String)
    (user : String) (i : Nat) : Bool :=
  match gen i (_create_generation_prompt user (prevErrAt help gen user i)) with
  | .error _ => false
  | .ok text => (_validate_command_structure help (_clean_command (pyStrip text))).1

/-- The cleaned command produced at iteration `i` (junk when the call raised). -/
def commandAt (help : String → Bool × String) (gen : Nat → String → Except String String)
    (user : String) (i : Nat) : String :=
  match gen i (_create_generation_prompt user (prevErrAt help gen user i)) with
  | .error _ => ""
  | .ok text => _clean_command (pyStrip text)

end Claude45

/-! ## Embedding of `src/gpt5pro/simplified/main.py` -/

namespace Simplified

/-- The `TEMPLATES` dict, in insertion order. -/
def TEMPLATES : List ((String × String) × String) :=
  [(("cloud_run", "describe"),
    "gcloud run services describe SERVICE_NAME --project=PROJECT_ID --region=REGION --format=yaml"),
   (("cloud_run", "list"),
    "gcloud run services list --project=PROJECT_ID --region=REGION"),
   (("cloud_run", "logs_read"),
    "gcloud run services logs read SERVICE_NAME --project=PROJECT_ID --limit=50"),
   (("cloud_run", "logs_tail"),
    "gcloud beta run services logs tail SERVICE_NAME --project=PROJECT_ID"),
   (("cloud_run", "revisions_list"),
    "gcloud run revisions list --service=SERVICE_NAME --region=REGION --project=PROJECT_ID"),
   (("cloud_run", "revisions_describe"),
    "gcloud run revisions describe REVISION_NAME --region=REGION --project=PROJECT_ID --format=yaml"),
   (("gke", "describe"),
    "gcloud container clusters describe CLUSTER_NAME --location=LOCATION --project=PROJECT_ID"),
   (("gke", "list"),
    "gcloud container clusters list --project=PROJECT_ID"),
   (("compute", "describe"),
    "gcloud compute instances describe INSTANCE_NAME --zone=ZONE --project=PROJECT_ID"),
   (("compute", "list"),
    "gcloud compute instances list --project=PROJECT_ID"),
   (("cloud_sql", "describe"),
    "gcloud sql instances describe INSTANCE_NAME --project=PROJECT_ID"),
   (("cloud_sql", "list"),
    "gcloud sql instances list --project=PROJECT_ID"),
   (("storage", "describe"),
    "gcloud storage buckets describe gs://BUCKET_NAME --project=PROJECT_ID"),
   (("storage", "list"),
    "gcloud storage buckets list --project=PROJECT_ID"),
   (("iam", "policy"),
    "gcloud projects get-iam-policy PROJECT_ID --format=json")]

/-- The `SERVICE_HINTS` dict, in insertion order. -/
def SERVICE_HINTS : List (String × List String) :=
  [("cloud_run", ["cloud run", "run service", "cloudrun", "run ", "cloud-run", "serverless run"]),
   ("gke", ["gke", "kubernetes", "k8s", "cluster", "kubernetes engine"]),
   ("compute", ["compute engine", "compute", "vm", "instance", "vm instance", "gce"]),
   ("cloud_sql", ["cloud sql", "sql instance", "postgres", "mysql", "cloudsql", "csql"]),
   ("storage", ["cloud storage", "gcs", "bucket", "storage"]),
   ("iam", ["iam", "policy", "who has access", "permissions", "roles", "members", "access"])]

/-- The `ACTION_HINTS` dict, in insertion order. -/
def ACTION_HINTS : List (String × List String) :=
  [("describe", ["describe", "config", "configuration", "settings", "details", "inspect",
                 "spec", "yaml", "show config"]),
   ("list", ["list", "ls", "show all", "enumerate", "list all"]),
   ("logs_read", ["logs", "read logs", "view logs", "get logs", "error logs", "errors"]),
   ("logs_tail", ["tail", "stream", "follow"]),
   ("revisions_list", ["revisions", "history", "previous versions", "all revisions"]),
   ("revisions_describe", ["revision details", "describe revision"]),
   ("policy", ["iam policy", "policy", "who has access", "members", "roles", "permissions"])]

/-- The `ACTION_PREFERENCE`. -/
def ACTION_PREFERENCE : List String :=
  ["logs_tail", "logs_read", "revisions_describe", "revisions_list",
   "describe", "list", "policy"]

/-- The `pick_service`. -/
def pick_service (text : String) : Option String :=
  (SERVICE_HINTS.find? (fun p => p.2.any (fun h => pyIn h (pyLower text)))).map
    (fun p => p.1)

/-- The `pick_action`. -/
def pick_action (service : String) (text : String) : String :=
  if service = "iam" then "policy"
  else
    match (ACTION_HINTS.filter (fun p => p.2.any (fun h => pyIn h (pyLower text)))).map
        (fun p => p.1) with
    | [] => "describe"
    | m :: ms =>
      match ACTION_PREFERENCE.find? (fun pref => (m :: ms).contains pref) with
      | some pref => pref
      | none => m

/-- The `TEMPLATES[key]` lookup. -/
def lookupTemplate (key : String × String) : Option String :=
  (TEMPLATES.find? (fun e => e.1 = key)).map (fun e => e.2)

/-- The `generate`. -/
def generate (prompt : String) : String :=
  match pick_service prompt with
  | none =>
    "Unsupported/ambiguous prompt. Try mentioning a product (e.g., \x27Cloud Run\x27, \x27GKE\x27, \x27Compute Engine\x27, \x27Cloud SQL\x27, \x27Cloud Storage\x27, or \x27IAM\x27)."
  | some service =>
    match lookupTemplate (service, pick_action service prompt) with
    | some tmpl => tmpl
    | none =>
      "No safe template for: " ++ service ++ " + " ++ pick_action service prompt ++
        ". Add one to TEMPLATES."

end Simplified

/-! ## Lemmas about the shared string primitives -/

theorem dropWhile_head_not {p : Char → Bool} {l : List Char} {c : Char}
    (h : (l.dropWhile p).head? = some c) : p c = false := by
  induction l with
  | nil => simp at h
  | cons a t ih =>
    by_cases hpa : p a
    · rw [List.dropWhile_cons, if_pos hpa] at h
      exact ih h
    · rw [List.dropWhile_cons, if_neg hpa] at h
      simp only [List.head?_cons, Option.some.injEq] at h
      subst h
      simpa using hpa

theorem dropTrail_prefix_self (p : Char → Bool) (l : List Char) : dropTrail p l <+: l := by
  have h1 : (l.reverse.dropWhile p) <:+ l.reverse := List.dropWhile_suffix p
  have h2 : ((l.reverse.dropWhile p).reverse).reverse <:+ l.reverse := by
    simpa using h1
  exact List.reverse_suffix.mp h2

theorem pyStripL_head_not {l : List Char} {c : Char}
    (h : (pyStripL l).head? = some c) : pySpace c = false := by
  obtain ⟨r, hr⟩ := dropTrail_prefix_self pySpace (l.dropWhile pySpace)
  rw [pyStripL] at h
  have hd : (l.dropWhile pySpace).head? = some c := by
    rw [← hr]
    cases hps : dropTrail pySpace (l.dropWhile pySpace) with
    | nil =>
      rw [hps] at h
      simp at h
    | cons a t =>
      rw [hps] at h
      simpa using h
  exact dropWhile_head_not hd

theorem pyStripL_getLast_not {l : List Char} {c : Char}
    (h : (pyStripL l).getLast? = some c) : pySpace c = false := by
  have he : (pyStripL l).getLast? = ((l.dropWhile pySpace).reverse.dropWhile pySpace).head? := by
    rw [pyStripL, dropTrail, List.getLast?_reverse]
  rw [he] at h
  exact dropWhile_head_not h

theorem dropWhile_eq_self_of_head {p : Char → Bool} {l : List Char}
    (h : ∀ c, l.head? = some c → p c = false) : l.dropWhile p = l := by
  cases l with
  | nil => simp
  | cons a t =>
    have := h a (by simp)
    simp [List.dropWhile_cons, this]

theorem pyStripL_idem (l : List Char) : pyStripL (pyStripL l) = pyStripL l := by
  have h1 : (pyStripL l).dropWhile pySpace = pyStripL l :=
    dropWhile_eq_self_of_head (fun c hc => pyStripL_head_not hc)
  have h2 : (pyStripL l).reverse.dropWhile pySpace = (pyStripL l).reverse := by
    apply dropWhile_eq_self_of_head
    intro c hc
    rw [List.head?_reverse] at hc
    exact pyStripL_getLast_not hc
  show dropTrail pySpace ((pyStripL l).dropWhile pySpace) = pyStripL l
  rw [h1, dropTrail, h2, List.reverse_reverse]

theorem pyStripL_eq_nil_iff {l : List Char} :
    pyStripL l = [] ↔ ∀ c ∈ l, pySpace c = true := by
  constructor
  · intro h c hc
    rw [pyStripL, dropTrail] at h
    have h2 : (l.dropWhile pySpace).reverse.dropWhile pySpace = [] := by
      have := congrArg List.reverse h
      simpa using this
    have hall := List.dropWhile_eq_nil_iff.mp h2
    have hall2 : ∀ x ∈ l.dropWhile pySpace, pySpace x = true := by
      intro x hx
      exact hall x (by simpa using hx)
    have hsplit : c ∈ l.takeWhile pySpace ++ l.dropWhile pySpace := by
      rw [List.takeWhile_append_dropWhile]; exact hc
    rcases List.mem_append.mp hsplit with h3 | h3
    · exact List.mem_takeWhile_imp h3
    · exact hall2 c h3
  · intro h
    have hdw : l.dropWhile pySpace = [] := List.dropWhile_eq_nil_iff.mpr h
    rw [pyStripL, hdw, dropTrail]
    simp

theorem mem_pyStripL {l : List Char} {c : Char} (h : c ∈ pyStripL l) : c ∈ l := by
  have h1 : pyStripL l <+: l.dropWhile pySpace := dropTrail_prefix_self pySpace _
  have h2 : l.dropWhile pySpace <:+ l := List.dropWhile_suffix pySpace
  exact h2.sublist.subset (h1.sublist.subset h)

theorem pyStripL_infix_self (l : List Char) : pyStripL l <:+: l :=
  ((dropTrail_prefix_self pySpace (l.dropWhile pySpace)).isInfix).trans
    (List.dropWhile_suffix pySpace).isInfix

theorem splitNlL_ne_nil (l : List Char) : splitNlL l ≠ [] := by
  cases l with
  | nil => simp [splitNlL]
  | cons c rest =>
    rw [splitNlL]
    by_cases hc : c = '\n'
    · simp [hc]
    · rw [if_neg hc]
      cases hsp : splitNlL rest with
      | nil => simp
      | cons a as => simp

theorem mem_splitNlL_no_nl : ∀ {l p : List Char}, p ∈ splitNlL l → '\n' ∉ p := by
  intro l
  induction l with
  | nil =>
    intro p hp
    rw [splitNlL] at hp
    simp at hp
    simp [hp]
  | cons c rest ih =>
    intro p hp
    rw [splitNlL] at hp
    by_cases hc : c = '\n'
    · rw [if_pos hc] at hp
      rcases List.mem_cons.mp hp with h | h
      · simp [h]
      · exact ih h
    · rw [if_neg hc] at hp
      cases hsp : splitNlL rest with
      | nil => exact absurd hsp (splitNlL_ne_nil rest)
      | cons a as =>
        rw [hsp] at hp
        rcases List.mem_cons.mp hp with h | h
        · subst h
          intro hmem
          rcases List.mem_cons.mp hmem with h2 | h2
          · exact hc h2.symm
          · exact ih (by rw [hsp]; exact List.mem_cons_self a as) h2
        · exact ih (by rw [hsp]; exact List.mem_cons.mpr (Or.inr h))

theorem splitNlL_no_nl_eq {l : List Char} (h : '\n' ∉ l) : splitNlL l = [l] := by
  induction l with
  | nil => rfl
  | cons c rest ih =>
    rw [splitNlL]
    have hc : ¬ c = '\n' := fun hh => h (by simp [hh])
    rw [if_neg hc, ih (fun hm => h (List.mem_cons.mpr (Or.inr hm)))]

theorem splitNlL_head_prefix_self : ∀ (l p : List Char) (ps : List (List Char)),
    splitNlL l = p :: ps → p <+: l := by
  intro l
  induction l with
  | nil =>
    intro p ps h
    rw [splitNlL] at h
    injection h with h1 h2
    rw [← h1]
  | cons c rest ih =>
    intro p ps h
    rw [splitNlL] at h
    by_cases hc : c = '\n'
    · rw [if_pos hc] at h
      injection h with h1 h2
      rw [← h1]
      exact List.nil_prefix
    · rw [if_neg hc] at h
      cases hsp : splitNlL rest with
      | nil => exact absurd hsp (splitNlL_ne_nil rest)
      | cons a as =>
        rw [hsp] at h
        injection h with h1 h2
        obtain ⟨r, hr⟩ := ih a as hsp
        exact ⟨r, by rw [← h1]; simp [hr]⟩

theorem mem_splitNlL_infix_self : ∀ {l p : List Char}, p ∈ splitNlL l → p <:+: l := by
  intro l
  induction l with
  | nil =>
    intro p hp
    rw [splitNlL] at hp
    simp at hp
    simp [hp]
  | cons c rest ih =>
    intro p hp
    rw [splitNlL] at hp
    by_cases hc : c = '\n'
    · rw [if_pos hc] at hp
      rcases List.mem_cons.mp hp with h | h
      · subst h
        exact List.nil_infix
      · exact List.infix_cons (ih h)
    · rw [if_neg hc] at hp
      cases hsp : splitNlL rest with
      | nil => exact absurd hsp (splitNlL_ne_nil rest)
      | cons a as =>
        rw [hsp] at hp
        rcases List.mem_cons.mp hp with h | h
        · subst h
          obtain ⟨r, hr⟩ := splitNlL_head_prefix_self rest a as hsp
          exact ⟨[], r, by simp [hr]⟩
        · exact List.infix_cons (ih (by rw [hsp]; exact List.mem_cons.mpr (Or.inr h)))

theorem mem_splitNlL_of_mem : ∀ {l : List Char} {c : Char}, c ∈ l →
    c = '\n' ∨ ∃ p ∈ splitNlL l, c ∈ p := by
  intro l
  induction l with
  | nil => intro c hc; simp at hc
  | cons a rest ih =>
    intro c hc
    rcases List.mem_cons.mp hc with h | h
    · by_cases ha : a = '\n'
      · left; rw [h, ha]
      · right
        rw [splitNlL, if_neg ha]
        cases hsp : splitNlL rest with
        | nil => exact absurd hsp (splitNlL_ne_nil rest)
        | cons p ps =>
          exact ⟨a :: p, List.mem_cons_self _ _, by simp [h]⟩
    · rcases ih h with h2 | h2
      · left; exact h2
      · right
        obtain ⟨p, hp, hcp⟩ := h2
        rw [splitNlL]
        by_cases ha : a = '\n'
        · rw [if_pos ha]
          exact ⟨p, List.mem_cons.mpr (Or.inr hp), hcp⟩
        · rw [if_neg ha]
          cases hsp : splitNlL rest with
          | nil => exact absurd hsp (splitNlL_ne_nil rest)
          | cons q qs =>
            rw [hsp] at hp
            rcases List.mem_cons.mp hp with h3 | h3
            · refine ⟨a :: q, List.mem_cons_self _ _, ?_⟩
              rw [h3] at hcp
              exact List.mem_cons.mpr (Or.inr hcp)
            · exact ⟨p, List.mem_cons.mpr (Or.inr h3), hcp⟩

/-! ## Lemmas for `_clean_command` (claim C7) -/

namespace Claude45

theorem infix_cons_elim {l₁ l₂ : List Char} {a : Char} (h : l₁ <:+: a :: l₂) :
    l₁ <+: a :: l₂ ∨ l₁ <:+: l₂ := by
  obtain ⟨s, u, hsu⟩ := h
  cases s with
  | nil => exact Or.inl ⟨u, by simpa using hsu⟩
  | cons b s2 =>
    injection hsu with h1 h2
    exact Or.inr ⟨s2, u, h2⟩

theorem take_two_eq {l : List Char} {a b : Char} (h : l.take 2 = [a, b]) :
    ∃ r, l = a :: b :: r := by
  cases l with
  | nil => simp at h
  | cons x xs =>
    cases xs with
    | nil => simp at h
    | cons y ys =>
      simp [List.take] at h
      exact ⟨ys, by rw [h.1, h.2]⟩

theorem noTriple_tail {c : Char} {l : List Char} (h : noTriple (c :: l)) : noTriple l :=
  fun hin => h (List.infix_cons hin)

theorem noTriple_infix_mono {l₁ l₂ : List Char} (h2 : noTriple l₂) (h : l₁ <:+: l₂) :
    noTriple l₁ := fun hin => h2 (hin.trans h)

theorem noTriple_nil : noTriple ([] : List Char) := by
  intro hin
  have := hin.length_le
  simp [tripleBT] at this

theorem stripBT_eq_self : ∀ {l : List Char}, noTriple l → stripBT l = l := by
  intro l
  rw [stripBT]
  induction l with
  | nil => intro _; rfl
  | cons c rest ih =>
    intro h
    rw [List.length_cons, stripBTAux]
    by_cases hcond : c = '\x60' ∧ rest.take 2 = ['\x60', '\x60']
    · rcases hcond with ⟨hc, ht⟩
      obtain ⟨r, hr⟩ := take_two_eq ht
      exact absurd ⟨[], r, by rw [hc, hr]; simp [tripleBT]⟩ h
    · rw [if_neg hcond, ih (noTriple_tail h)]

theorem stripBT3_start_single : ∀ l : List Char,
    ['\x60'] <+: stripBT3 l → ['\x60'] <+: l := by
  intro l
  induction l using stripBT3.induct with
  | case1 rest ih =>
    intro _
    exact ⟨'\x60' :: '\x60' :: rest, rfl⟩
  | case2 c rest hside ih =>
    rw [stripBT3.eq_2 c rest hside]
    intro h
    obtain ⟨r, hr⟩ := h
    injection hr with h1 h2
    subst h1
    exact ⟨rest, rfl⟩
  | case3 =>
    intro h
    rw [stripBT3] at h
    simp at h

theorem stripBT3_start_double : ∀ l : List Char,
    ['\x60', '\x60'] <+: stripBT3 l → ['\x60', '\x60'] <+: l := by
  intro l
  induction l using stripBT3.induct with
  | case1 rest ih =>
    intro _
    exact ⟨'\x60' :: rest, rfl⟩
  | case2 c rest hside ih =>
    rw [stripBT3.eq_2 c rest hside]
    intro h
    obtain ⟨r, hr⟩ := h
    injection hr with h1 h2
    subst h1
    obtain ⟨r2, hr2⟩ := stripBT3_start_single rest ⟨r, h2⟩
    exact ⟨r2, congrArg (List.cons '\x60') hr2⟩
  | case3 =>
    intro h
    rw [stripBT3] at h
    simp at h

theorem noTriple_stripBT3 : ∀ l : List Char, noTriple (stripBT3 l) := by
  intro l
  induction l using stripBT3.induct with
  | case1 rest ih =>
    rw [stripBT3]
    exact ih
  | case2 c rest hside ih =>
    rw [stripBT3.eq_2 c rest hside]
    intro hin
    rcases infix_cons_elim hin with hpre | hinf
    · obtain ⟨r, hr⟩ := hpre
      simp only [tripleBT, List.cons_append] at hr
      injection hr with h1 h2
      obtain ⟨r2, hr2⟩ := stripBT3_start_double rest ⟨r, h2⟩
      exact hside r2 h1.symm hr2.symm
    · exact ih hinf
  | case3 =>
    rw [stripBT3]
    exact noTriple_nil

theorem stripBT3_eq_self : ∀ {l : List Char}, noTriple l → stripBT3 l = l := by
  intro l
  induction l using stripBT3.induct with
  | case1 rest ih =>
    intro h
    exact absurd ⟨[], rest, by simp [tripleBT]⟩ h
  | case2 c rest hside ih =>
    intro h
    rw [stripBT3.eq_2 c rest hside, ih (noTriple_tail h)]
  | case3 =>
    intro _
    rfl

theorem stripDollarHash_infix_self (l : List Char) : stripDollarHash l <:+: l := by
  cases l with
  | nil => exact List.nil_infix
  | cons c rest =>
    rw [stripDollarHash]
    by_cases hc : c = '$' ∨ c = '#'
    · rw [if_pos hc]
      exact List.infix_cons (List.dropWhile_suffix pySpace).isInfix
    · rw [if_neg hc]

theorem mem_cleanLines {c3 q : List Char} (h : q ∈ cleanLines c3) :
    (∃ p ∈ splitNlL c3, q = pyStripL p) ∧ q ≠ [] := by
  rcases List.mem_filter.mp h with ⟨hm, hne⟩
  rcases List.mem_map.mp hm with ⟨p, hp, hqp⟩
  refine ⟨⟨p, hp, hqp.symm⟩, ?_⟩
  intro hq
  rw [hq] at hne
  simp at hne

theorem cleanCore_cases (c3 : List Char) :
    (∃ q ∈ cleanLines c3, cleanCore c3 = q) ∨
    (cleanCore c3 = pyStripL c3 ∧ cleanLines c3 = []) := by
  rw [cleanCore]
  cases hf : (cleanLines c3).find? (fun l => "gcloud".data.isPrefixOf l) with
  | some l => exact Or.inl ⟨l, List.mem_of_find?_eq_some hf, rfl⟩
  | none =>
    cases hl : cleanLines c3 with
    | nil => exact Or.inr ⟨rfl, rfl⟩
    | cons a as =>
      exact Or.inl ⟨a, List.mem_cons_self _ _, rfl⟩

theorem cleanCore_props {c3 : List Char} (hnt : noTriple c3) :
    noTriple (cleanCore c3) ∧ '\n' ∉ cleanCore c3 ∧
    pyStripL (cleanCore c3) = cleanCore c3 := by
  rcases cleanCore_cases c3 with ⟨q, hq, heq⟩ | ⟨hpe, hle⟩
  · obtain ⟨⟨p, hp, hqp⟩, _⟩ := mem_cleanLines hq
    rw [heq, hqp]
    refine ⟨?_, ?_, pyStripL_idem p⟩
    · exact noTriple_infix_mono hnt ((pyStripL_infix_self p).trans (mem_splitNlL_infix_self hp))
    · intro hmem
      exact mem_splitNlL_no_nl hp (mem_pyStripL hmem)
  · have hall : ∀ p ∈ splitNlL c3, pyStripL p = [] := by
      intro p hp
      by_contra hne
      have hmem : pyStripL p ∈ cleanLines c3 := by
        rw [cleanLines]
        refine List.mem_filter.mpr ⟨List.mem_map.mpr ⟨p, hp, rfl⟩, ?_⟩
        simpa using hne
      rw [hle] at hmem
      simp at hmem
    have hcall : ∀ c ∈ c3, pySpace c = true := by
      intro c hc
      rcases mem_splitNlL_of_mem hc with h | ⟨p, hp, hcp⟩
      · rw [h]; rfl
      · exact pyStripL_eq_nil_iff.mp (hall p hp) c hcp
    have hnil : pyStripL c3 = [] := pyStripL_eq_nil_iff.mpr hcall
    rw [hpe, hnil]
    exact ⟨noTriple_nil, by simp, rfl⟩

theorem cleanL_props (s : List Char) :
    noTriple (cleanL s) ∧ '\n' ∉ cleanL s ∧ pyStripL (cleanL s) = cleanL s := by
  rw [cleanL]
  exact cleanCore_props
    (noTriple_infix_mono (noTriple_stripBT3 (stripBT s)) (stripDollarHash_infix_self _))

theorem cleanL_fixed {r : List Char} (hnt : noTriple r) (hnl : '\n' ∉ r)
    (hst : pyStripL r = r) (hd : r.head? ≠ some '$') (hh : r.head? ≠ some '#') :
    cleanL r = r := by
  rw [cleanL]
  have h1 : stripBT r = r := stripBT_eq_self hnt
  have h2 : stripBT3 r = r := stripBT3_eq_self hnt
  have h3 : stripDollarHash r = r := by
    cases r with
    | nil => rfl
    | cons c rest =>
      rw [stripDollarHash]
      have hcc : ¬ (c = '$' ∨ c = '#') := by
        rintro (rfl | rfl)
        · exact hd rfl
        · exact hh rfl
      rw [if_neg hcc]
  rw [h1, h2, h3]
  have hsp : splitNlL r = [r] := splitNlL_no_nl_eq hnl
  by_cases hre : r = []
  · subst hre
    rfl
  · have hemp : r.isEmpty = false := by
      cases r
      · exact absurd rfl hre
      · rfl
    have hlines : cleanLines r = [r] := by
      rw [cleanLines, hsp, List.map_cons, List.map_nil, hst]
      simp [List.filter, hemp]
    rw [cleanCore, hlines]
    cases hf : [r].find? (fun l => "gcloud".data.isPrefixOf l) with
    | some l =>
      have hmem := List.mem_of_find?_eq_some hf
      simp at hmem
      rw [hmem]
    | none => rfl

end Claude45

/-! ## Lemmas for the probing loop (claim C4) -/

namespace Claude45

theorem mem_probed {help : String → Bool × String} :
    ∀ {cands : List (List String)} {x : List String},
      x ∈ probed help cands → x ∈ cands := by
  intro cands
  induction cands with
  | nil => intro x hx; simp [probed] at hx
  | cons c rest ih =>
    intro x hx
    rw [probed] at hx
    by_cases hc : (help (joinWith " " c)).1
    · rw [if_pos hc] at hx
      simp at hx
      simp [hx]
    · rw [if_neg hc] at hx
      rcases List.mem_cons.mp hx with h | h
      · simp [h]
      · exact List.mem_cons.mpr (Or.inr (ih h))

theorem pairwise_probed {help : String → Bool × String} :
    ∀ {cands : List (List String)}, List.Pairwise (· <+: ·) cands →
      List.Pairwise (· <+: ·) (probed help cands) := by
  intro cands
  induction cands with
  | nil => intro _; simp [probed]
  | cons c rest ih =>
    intro h
    rw [probed]
    rcases List.pairwise_cons.mp h with ⟨hc, ht⟩
    by_cases hs : (help (joinWith " " c)).1
    · rw [if_pos hs]
      exact List.pairwise_singleton _ _
    · rw [if_neg hs]
      exact List.pairwise_cons.mpr ⟨fun y hy => hc y (mem_probed hy), ih ht⟩

theorem take_prefix_take {α : Type} {i j : Nat} (h : i ≤ j) (l : List α) :
    l.take i <+: l.take j := by
  have heq : l.take i = (l.take j).take i := by
    rw [List.take_take]
    have : i ⊓ j = i := by
      simpa using h
    rw [this]
  rw [heq]
  exact List.take_prefix _ _

theorem pairwise_candPrefixes (parts : List String) :
    List.Pairwise (· <+: ·) (candPrefixes parts) := by
  rw [candPrefixes]
  apply List.Pairwise.filter
  rw [List.pairwise_map]
  apply List.Pairwise.imp ?_ (List.pairwise_lt_range' 1 parts.length)
  intro a b hab
  exact List.IsPrefix.filter _ (take_prefix_take (Nat.le_of_lt hab) parts)

theorem loopResult_all_fail {help : String → Bool × String} {command : String} :
    ∀ {cands : List (List String)},
      (∀ c ∈ cands, (help (joinWith " " c)).1 = false) →
      loopResult help command cands =
        (false, "Invalid gcloud command structure: " ++ command) := by
  intro cands
  induction cands with
  | nil => intro _; rfl
  | cons c rest ih =>
    intro h
    have hc := h c (List.mem_cons_self _ _)
    rw [loopResult, hc]
    simp only [Bool.false_eq_true, if_false]
    exact ih (fun d hd => h d (List.mem_cons.mpr (Or.inr hd)))

theorem string_append_ne_of_take {p q : String} (n : Nat)
    (hp : n ≤ p.data.length) (hq : n ≤ q.data.length)
    (hne : p.data.take n ≠ q.data.take n) :
    ∀ s t : String, p ++ s ≠ q ++ t := by
  intro s t h
  apply hne
  have hd : p.data ++ s.data = q.data ++ t.data := by
    have h2 := congrArg String.data h
    rwa [String.data_append, String.data_append] at h2
  have h2 := congrArg (List.take n) hd
  rw [List.take_append_eq_append_take, List.take_append_eq_append_take,
      Nat.sub_eq_zero_of_le hp, Nat.sub_eq_zero_of_le hq] at h2
  simpa using h2

theorem valid_msg_ne (cmd2 : String) :
    ("Command syntax is valid" : String) ≠ "Invalid gcloud command structure: " ++ cmd2 := by
  intro h
  rw [← String.append_empty "Command syntax is valid"] at h
  exact string_append_ne_of_take 1 (by decide) (by decide) (by decide) _ _ h

theorem invalid_flags_msg_ne (j cmd2 : String) :
    "Invalid flags: " ++ j ≠ "Invalid gcloud command structure: " ++ cmd2 :=
  string_append_ne_of_take 9 (by decide) (by decide) (by decide) j cmd2

theorem vf_ne_struct (command help_text cmd2 : String) :
    _validate_full_command command help_text ≠
      (false, "Invalid gcloud command structure: " ++ cmd2) := by
  rw [_validate_full_command]
  cases hinv : ((findallFlags command).map splitEqHead).filter
      (fun fn => !pyIn fn help_text) with
  | nil =>
    intro h
    exact Bool.true_eq_false.mp (congrArg Prod.fst h)
  | cons a as =>
    intro h
    exact invalid_flags_msg_ne _ _ (congrArg Prod.snd h)

theorem loopResult_success_mem {help : String → Bool × String} {cmd : String} :
    ∀ {cands : List (List String)} {c : List String},
      c ∈ probed help cands → (help (joinWith " " c)).1 = true →
      loopResult help cmd cands = _validate_full_command cmd (help (joinWith " " c)).2 := by
  intro cands
  induction cands with
  | nil => intro c hc _; simp [probed] at hc
  | cons c0 rest ih =>
    intro c hc hs
    rw [probed] at hc
    by_cases h0 : (help (joinWith " " c0)).1
    · rw [if_pos h0] at hc
      simp at hc
      subst hc
      rw [loopResult, if_pos h0]
    · rw [if_neg h0] at hc
      rcases List.mem_cons.mp hc with h | h
      · subst h
        rw [hs] at h0
        exact absurd rfl h0
      · rw [loopResult, if_neg h0]
        exact ih h hs

theorem loopResult_struct_imp {help : String → Bool × String} {cmd : String} :
    ∀ {cands : List (List String)},
      loopResult help cmd cands = (false, "Invalid gcloud command structure: " ++ cmd) →
      ∀ c ∈ probed help cands, (help (joinWith " " c)).1 = false := by
  intro cands
  induction cands with
  | nil => intro _ c hc; simp [probed] at hc
  | cons c0 rest ih =>
    intro h c hc
    by_cases h0 : (help (joinWith " " c0)).1
    · rw [loopResult, if_pos h0] at h
      exact absurd h (vf_ne_struct _ _ _)
    · rw [loopResult, if_neg h0] at h
      rw [probed, if_neg h0] at hc
      rcases List.mem_cons.mp hc with hcc | hcc
      · subst hcc
        simpa using h0
      · exact ih h c hcc

end Claude45

/-! ## Lemmas for the generation loop (claim C5) -/

namespace Claude45

theorem genLoop_cons_error {help : String → Bool × String}
    {gen : Nat → String → Except String String} {user : String} {n i : Nat}
    {rest : List Nat} {prev : Option String} {e : String}
    (hg : gen i (_create_generation_prompt user prev) = .error e) :
    genLoop help gen user n (i :: rest) prev = genLoop help gen user n rest (some e) := by
  rw [genLoop, hg]

theorem genLoop_cons_ok {help : String → Bool × String}
    {gen : Nat → String → Except String String} {user : String} {n i : Nat}
    {rest : List Nat} {prev : Option String} {text : String}
    (hg : gen i (_create_generation_prompt user prev) = .ok text) :
    genLoop help gen user n (i :: rest) prev =
      if (_validate_command_structure help (_clean_command (pyStrip text))).1 then
        ⟨true, some (_clean_command (pyStrip text)),
          "Command generated and validated successfully", some (i + 1), none⟩
      else
        genLoop help gen user n rest
          (some (_validate_command_structure help (_clean_command (pyStrip text))).2) := by
  rw [genLoop, hg]

theorem genLoop_iterations_bound {help : String → Bool × String}
    {gen : Nat → String → Except String String} {user : String} {n : Nat} :
    ∀ {l : List Nat} {prev : Option String} {k : Nat},
      (genLoop help gen user n l prev).iterations = some k → ∃ i ∈ l, k = i + 1 := by
  intro l
  induction l with
  | nil => intro prev k h; simp [genLoop] at h
  | cons i rest ih =>
    intro prev k h
    cases hg : gen i (_create_generation_prompt user prev) with
    | error e =>
      rw [genLoop_cons_error hg] at h
      obtain ⟨j, hj, hk⟩ := ih h
      exact ⟨j, List.mem_cons.mpr (Or.inr hj), hk⟩
    | ok text =>
      rw [genLoop_cons_ok hg] at h
      by_cases hv : (_validate_command_structure help (_clean_command (pyStrip text))).1
      · rw [if_pos hv] at h
        simp at h
        exact ⟨i, List.mem_cons_self _ _, h.symm⟩
      · rw [if_neg hv] at h
        obtain ⟨j, hj, hk⟩ := ih h
        exact ⟨j, List.mem_cons.mpr (Or.inr hj), hk⟩

theorem genLoop_all_fail {help : String → Bool × String}
    {gen : Nat → String → Except String String} {user : String} {n : Nat} :
    ∀ (k i : Nat),
      (∀ j, i ≤ j → j < i + k → validatesAt help gen user j = false) →
      genLoop help gen user n (List.range' i k) (prevErrAt help gen user i) =
        ⟨false, none, "Failed to generate valid command after " ++ toString n ++ " attempts",
          none, some (prevErrAt help gen user (i + k))⟩ := by
  intro k
  induction k with
  | zero => intro i _; rfl
  | succ k ih =>
    intro i h
    rw [List.range'_succ]
    cases hg : gen i (_create_generation_prompt user (prevErrAt help gen user i)) with
    | error e =>
      rw [genLoop_cons_error hg]
      have hp : prevErrAt help gen user (i + 1) = some e := by
        rw [prevErrAt, hg]
      rw [← hp]
      have hrec := ih (i + 1) (fun j hj1 hj2 => h j (Nat.le_of_succ_le hj1) (by omega))
      rw [hrec]
      have harith : i + 1 + k = i + (k + 1) := by omega
      rw [harith]
    | ok text =>
      rw [genLoop_cons_ok hg]
      have hvb : (_validate_command_structure help (_clean_command (pyStrip text))).1
          = false := by
        have hval : validatesAt help gen user i = false := h i (Nat.le_refl i) (by omega)
        rw [validatesAt, hg] at hval
        exact hval
      rw [hvb]
      simp only [Bool.false_eq_true, if_false]
      have hp : prevErrAt help gen user (i + 1) =
          some (_validate_command_structure help (_clean_command (pyStrip text))).2 := by
        rw [prevErrAt, hg]
      rw [← hp]
      have hrec := ih (i + 1) (fun j hj1 hj2 => h j (Nat.le_of_succ_le hj1) (by omega))
      rw [hrec]
      have harith : i + 1 + k = i + (k + 1) := by omega
      rw [harith]

theorem genLoop_first_success {help : String → Bool × String}
    {gen : Nat → String → Except String String} {user : String} {n : Nat} :
    ∀ (k i j0 : Nat), i ≤ j0 → j0 < i + k →
      validatesAt help gen user j0 = true →
      (∀ j, i ≤ j → j < j0 → validatesAt help gen user j = false) →
      genLoop help gen user n (List.range' i k) (prevErrAt help gen user i) =
        ⟨true, some (commandAt help gen user j0),
          "Command generated and validated successfully", some (j0 + 1), none⟩ := by
  intro k
  induction k with
  | zero => intro i j0 h1 h2; omega
  | succ k ih =>
    intro i j0 h1 h2 hv hprev
    rw [List.range'_succ]
    cases hg : gen i (_create_generation_prompt user (prevErrAt help gen user i)) with
    | error e =>
      rw [genLoop_cons_error hg]
      have hvi : validatesAt help gen user i = false := by
        rw [validatesAt, hg]
      have hij : i ≠ j0 := by
        intro he
        rw [he] at hvi
        rw [hvi] at hv
        exact Bool.false_ne_true hv
      have hp : prevErrAt help gen user (i + 1) = some e := by
        rw [prevErrAt, hg]
      rw [← hp]
      exact ih (i + 1) j0 (by omega) (by omega) hv
        (fun j hj1 hj2 => hprev j (by omega) hj2)
    | ok text =>
      rw [genLoop_cons_ok hg]
      by_cases hvb : (_validate_command_structure help (_clean_command (pyStrip text))).1
      · have hvi : validatesAt help gen user i = true := by
          rw [validatesAt, hg]
          exact hvb
        have hij : i = j0 := by
          by_contra hne
          have hlt : i < j0 := by omega
          have hcontra := hprev i (Nat.le_refl i) hlt
          rw [hvi] at hcontra
          exact Bool.true_eq_false.mp hcontra
        rw [if_pos hvb]
        subst hij
        have hcmd : commandAt help gen user i = _clean_command (pyStrip text) := by
          rw [commandAt, hg]
        rw [hcmd]
      · have hvi : validatesAt help gen user i = false := by
          rw [validatesAt, hg]
          simpa using hvb
        have hij : i ≠ j0 := by
          intro he
          rw [he] at hvi
          rw [hvi] at hv
          exact Bool.false_ne_true hv
        rw [if_neg hvb]
        have hp : prevErrAt help gen user (i + 1) =
            some (_validate_command_structure help (_clean_command (pyStrip text))).2 := by
          rw [prevErrAt, hg]
        rw [← hp]
        exact ih (i + 1) j0 (by omega) (by omega) hv
          (fun j hj1 hj2 => hprev j (by omega) hj2)

end Claude45

/-! ## Lemmas for scoring and candidate choice (claim C3) -/

namespace GPT5Pro

theorem insDesc_perm (x : CommandSpec × ℚ) (l : List (CommandSpec × ℚ)) :
    (insDesc x l).Perm (x :: l) := by
  induction l with
  | nil => rfl
  | cons y ys ih =>
    rw [insDesc]
    by_cases h : y.2 < x.2
    · rw [if_pos h]
    · rw [if_neg h]
      exact (ih.cons y).trans (List.Perm.swap x y ys)

theorem sortDesc_perm (l : List (CommandSpec × ℚ)) : (sortDesc l).Perm l := by
  induction l with
  | nil => rfl
  | cons x xs ih =>
    exact (insDesc_perm x (sortDesc xs)).trans (ih.cons x)

theorem sorted_insDesc {x : CommandSpec × ℚ} {l : List (CommandSpec × ℚ)}
    (h : List.Pairwise (fun a b => b.2 ≤ a.2) l) :
    List.Pairwise (fun a b => b.2 ≤ a.2) (insDesc x l) := by
  induction l with
  | nil => simp [insDesc]
  | cons y ys ih =>
    rcases List.pairwise_cons.mp h with ⟨hy, ht⟩
    rw [insDesc]
    by_cases hcmp : y.2 < x.2
    · rw [if_pos hcmp]
      refine List.pairwise_cons.mpr ⟨?_, h⟩
      intro z hz
      rcases List.mem_cons.mp hz with h1 | h1
      · rw [h1]; exact le_of_lt hcmp
      · exact le_trans (hy z h1) (le_of_lt hcmp)
    · rw [if_neg hcmp]
      refine List.pairwise_cons.mpr ⟨?_, ih ht⟩
      intro z hz
      rcases List.mem_cons.mp ((insDesc_perm x ys).mem_iff.mp hz) with h1 | h1
      · rw [h1]; exact le_of_not_lt hcmp
      · exact hy z h1

theorem sorted_sortDesc (l : List (CommandSpec × ℚ)) :
    List.Pairwise (fun a b => b.2 ≤ a.2) (sortDesc l) := by
  induction l with
  | nil => simp [sortDesc]
  | cons x xs ih => exact sorted_insDesc ih

theorem filter_head?_eq_find? {α : Type} (p : α → Bool) :
    ∀ l : List α, (l.filter p).head? = l.find? p := by
  intro l
  induction l with
  | nil => rfl
  | cons a as ih =>
    cases h : p a with
    | true => simp [List.filter_cons, List.find?_cons, h]
    | false => simp [List.filter_cons, List.find?_cons, h, ih]

theorem verb_bonus_eq (pts pths : List String) :
    (if VERBS.filter (fun v => pts.contains v) ≠ [] ∧
        pths.filter (fun t => VERBS.contains t) ≠ [] ∧
        (VERBS.filter (fun v => pts.contains v)).contains
          ((pths.filter (fun t => VERBS.contains t)).headD "")
     then (0.5 : ℚ)
     else if pths.filter (fun t => VERBS.contains t) ≠ [] ∧
        VERBS.filter (fun v => pts.contains v) ≠ [] then 0.35 else 0) =
    specVerbBonus pts pths := by
  rw [specVerbBonus]
  cases hf : pths.find? (fun t => VERBS.contains t) with
  | none =>
    have hfil : pths.filter (fun t => VERBS.contains t) = [] := by
      rw [List.filter_eq_nil_iff]
      intro a ha
      have h2 := List.find?_eq_none.mp hf a ha
      simpa using h2
    rw [hfil]
    simp
  | some v =>
    dsimp only
    have hhead : (pths.filter (fun t => VERBS.contains t)).head? = some v := by
      rw [filter_head?_eq_find?, hf]
    have hne : pths.filter (fun t => VERBS.contains t) ≠ [] := by
      intro hnil
      rw [hnil] at hhead
      simp at hhead
    have hheadD : (pths.filter (fun t => VERBS.contains t)).headD "" = v := by
      rw [List.headD_eq_head?, hhead]
      rfl
    have hvver : VERBS.contains v := List.find?_some hf
    rw [hheadD]
    by_cases hpv : pts.contains v
    · have hpvmem : v ∈ VERBS.filter (fun w => pts.contains w) :=
        List.mem_filter.mpr ⟨by simpa using hvver, hpv⟩
      have hpne : VERBS.filter (fun w => pts.contains w) ≠ [] := by
        intro hnil
        rw [hnil] at hpvmem
        simp at hpvmem
      have hcont : ((VERBS.filter (fun w => pts.contains w)).contains v) = true := by
        simpa using hpvmem
      rw [if_pos ⟨hpne, hne, hcont⟩, if_pos hpv]
    · have hnc : ¬ ((VERBS.filter (fun w => pts.contains w)).contains v = true) := by
        intro hcmem
        have hmm := List.mem_filter.mp (by simpa using hcmem :
          v ∈ VERBS.filter (fun w => pts.contains w))
        exact hpv hmm.2
      rw [if_neg (fun hcond => hnc hcond.2.2), if_neg hpv]
      by_cases hany : VERBS.any (fun w => pts.contains w)
      · have hpne : VERBS.filter (fun w => pts.contains w) ≠ [] := by
          rcases List.any_eq_true.mp hany with ⟨w, hw, hcw⟩
          intro hnil
          have hmm : w ∈ VERBS.filter (fun w2 => pts.contains w2) :=
            List.mem_filter.mpr ⟨hw, hcw⟩
          rw [hnil] at hmm
          simp at hmm
        rw [if_pos ⟨hne, hpne⟩, if_pos hany]
      · have hpe : VERBS.filter (fun w => pts.contains w) = [] := by
          rw [List.filter_eq_nil_iff]
          intro a ha hca
          exact hany (List.any_eq_true.mpr ⟨a, ha, hca⟩)
        rw [if_neg (fun hcond => hcond.2 hpe), if_neg hany]

end GPT5Pro

/-! ## Remaining support lemmas -/

namespace GPT5Pro

theorem matchWsFlag_pyStripL (l : List Char) : matchWsFlag (pyStripL l) = none := by
  have hws : (pyStripL l).takeWhile pySpace = [] := by
    cases hps : pyStripL l with
    | nil => rfl
    | cons a t =>
      have ha : pySpace a = false := pyStripL_head_not (by rw [hps]; rfl)
      simp [List.takeWhile_cons, ha]
  simp only [matchWsFlag, hws]
  rfl

end GPT5Pro

namespace Claude45

theorem probed_eq_of_all_fail {help : String → Bool × String} :
    ∀ {cands : List (List String)},
      (∀ c ∈ probed help cands, (help (joinWith " " c)).1 = false) →
      probed help cands = cands := by
  intro cands
  induction cands with
  | nil => intro _; rfl
  | cons c rest ih =>
    intro h
    by_cases hc : (help (joinWith " " c)).1
    · exfalso
      have hcp : c ∈ probed help (c :: rest) := by
        rw [probed, if_pos hc]
        exact List.mem_cons_self _ _
      have := h c hcp
      rw [hc] at this
      exact Bool.true_eq_false.mp this
    · rw [probed, if_neg hc]
      rw [probed, if_neg hc] at h
      rw [ih (fun d hd => h d (List.mem_cons.mpr (Or.inr hd)))]

end Claude45

/-! ## Claim theorems -/

/-- C1: the spec claims the FLAGS-section scraper extracts exactly the flags
leading the indented lines after a `FLAGS` header.  The code strips each line
before matching a pattern that requires leading whitespace
(`re.match(r"\s+(--...)", line.strip())`), so the scraper never extracts any
flag: for every help text the scraped list is empty, while the claim-side
reading of the same sample help text yields `["--region"]`, and the flag set
computed by `parse_help_for_command` degenerates to the sorted gcloud-wide
flags. -/
theorem claim_C1 :
    (∀ out : String, GPT5Pro.scrapeFlagsFromHelp out = []) ∧
    GPT5Pro.specFlagsSection
        "NAME\n  desc\nFLAGS\n  --region=REGION\n     Region to use.\nNOTES\n" =
      ["--region"] ∧
    GPT5Pro.parseHelpFlags
        "NAME\n  desc\nFLAGS\n  --region=REGION\n     Region to use.\nNOTES\n" =
      ["--account", "--configuration", "--format", "--project", "--quiet",
       "--verbosity"] := by
  refine ⟨?_, by decide, by decide⟩
  intro out
  rw [GPT5Pro.scrapeFlagsFromHelp]
  cases h1 : (splitNlL out.data).findIdx? GPT5Pro.isFlagsHeaderLine with
  | none => rfl
  | some i =>
    dsimp only
    cases h2 : ((splitNlL out.data).drop (i + 1)).findIdx? GPT5Pro.startsWordLine with
    | none => rfl
    | some j =>
      dsimp only
      rw [List.filterMap_eq_nil_iff]
      intro l _
      exact GPT5Pro.matchWsFlag_pyStripL l

/-- C2: `_validate_full_command` returns invalid exactly when some token of
the command matching `--[\w-]+`, truncated at the first `=`, fails the
substring check against the help text; when every such token occurs it
returns `(True, "Command syntax is valid")`. -/
theorem claim_C2 (c h : String) :
    ((Claude45._validate_full_command c h).1 = false ↔
      ∃ t ∈ Claude45.findallFlags c, pyIn (Claude45.splitEqHead t) h = false) ∧
    ((∀ t ∈ Claude45.findallFlags c, pyIn (Claude45.splitEqHead t) h = true) →
      Claude45._validate_full_command c h = (true, "Command syntax is valid")) := by
  constructor
  · rw [Claude45._validate_full_command]
    cases hinv : ((Claude45.findallFlags c).map Claude45.splitEqHead).filter
        (fun fn => !pyIn fn h) with
    | nil =>
      dsimp only
      constructor
      · intro hff
        exact absurd hff (by simp)
      · rintro ⟨t, ht, hpt⟩
        exfalso
        have hmem : Claude45.splitEqHead t ∈
            ((Claude45.findallFlags c).map Claude45.splitEqHead).filter
              (fun fn => !pyIn fn h) := by
          refine List.mem_filter.mpr ⟨List.mem_map.mpr ⟨t, ht, rfl⟩, ?_⟩
          rw [hpt]
          rfl
        rw [hinv] at hmem
        simp at hmem
    | cons a as =>
      dsimp only
      refine ⟨fun _ => ?_, fun _ => rfl⟩
      have hmem : a ∈ ((Claude45.findallFlags c).map Claude45.splitEqHead).filter
          (fun fn => !pyIn fn h) := by
        rw [hinv]
        exact List.mem_cons_self _ _
      rcases List.mem_filter.mp hmem with ⟨hmm, hna⟩
      rcases List.mem_map.mp hmm with ⟨t, ht, hta⟩
      refine ⟨t, ht, ?_⟩
      rw [hta]
      simpa using hna
  · intro hall
    rw [Claude45._validate_full_command]
    have hfe : ((Claude45.findallFlags c).map Claude45.splitEqHead).filter
        (fun fn => !pyIn fn h) = [] := by
      rw [List.filter_eq_nil_iff]
      intro fn hfn
      rcases List.mem_map.mp hfn with ⟨t, ht, hta⟩
      rw [← hta]
      simp [hall t ht]
    rw [hfe]

/-- C2 witness: a command with one unknown and one known flag evaluated
against a concrete help text. -/
theorem claim_C2_witness :
    ((Claude45._validate_full_command "x --region=y --nope" "FLAGS --region").1 = false ↔
      ∃ t ∈ Claude45.findallFlags "x --region=y --nope",
        pyIn (Claude45.splitEqHead t) "FLAGS --region" = false) ∧
    ((∀ t ∈ Claude45.findallFlags "x --region=y --nope",
        pyIn (Claude45.splitEqHead t) "FLAGS --region" = true) →
      Claude45._validate_full_command "x --region=y --nope" "FLAGS --region" =
        (true, "Command syntax is valid")) :=
  claim_C2 "x --region=y --nope" "FLAGS --region"

/-- C6: the keyword-to-template heuristic is deterministic: the embedded
`generate`, `pick_service` and `pick_action` are pure functions of the input
text, so equal inputs yield equal outputs. -/
theorem claim_C6 (t1 t2 : String) (h : t1 = t2) :
    Simplified.generate t1 = Simplified.generate t2 ∧
    Simplified.pick_service t1 = Simplified.pick_service t2 ∧
    ∀ svc : String, Simplified.pick_action svc t1 = Simplified.pick_action svc t2 := by
  subst h
  exact ⟨rfl, rfl, fun _ => rfl⟩

/-- C6 witness: two invocations on the same prompt. -/
theorem claim_C6_witness :
    Simplified.generate "show config for my cloud run service" =
      Simplified.generate "show config for my cloud run service" ∧
    Simplified.pick_service "show config for my cloud run service" =
      Simplified.pick_service "show config for my cloud run service" ∧
    ∀ svc : String,
      Simplified.pick_action svc "show config for my cloud run service" =
        Simplified.pick_action svc "show config for my cloud run service" :=
  claim_C6 _ _ rfl

/-- C7 counterexample: `_clean_command` is not idempotent as claimed: on the
input `" #abc"` the first pass keeps the line `"#abc"` (the `^[$#]\s*`
substitution only fires at the very start of the string), while a second pass
strips the leading `#`, giving `"abc"`. -/
theorem claim_C7_counterexample :
    Claude45._clean_command " #abc" = "#abc" ∧
    Claude45._clean_command "#abc" = "abc" ∧
    Claude45._clean_command (Claude45._clean_command " #abc") ≠
      Claude45._clean_command " #abc" := by
  refine ⟨by decide, by decide, by decide⟩

/-- C7 (amended): `_clean_command` is idempotent on every input whose cleaned
output does not begin with `$` or `#` (when it does, the prompt-stripping
substitution fires again on the second pass). -/
theorem claim_C7 (s : String)
    (hd : (Claude45._clean_command s).data.head? ≠ some '$')
    (hh : (Claude45._clean_command s).data.head? ≠ some '#') :
    Claude45._clean_command (Claude45._clean_command s) = Claude45._clean_command s := by
  obtain ⟨hnt, hnl, hst⟩ := Claude45.cleanL_props s.data
  have hmk : ∀ x : List Char, (String.mk x).data = x := fun _ => rfl
  apply String.ext
  simp only [Claude45._clean_command, hmk] at hd hh ⊢
  exact Claude45.cleanL_fixed hnt hnl hst hd hh

/-- C7 witness: cleaning a fenced markdown response is idempotent. -/
theorem claim_C7_witness :
    Claude45._clean_command
        (Claude45._clean_command "\x60\x60\x60bash\ngcloud run deploy svc\n\x60\x60\x60") =
      Claude45._clean_command "\x60\x60\x60bash\ngcloud run deploy svc\n\x60\x60\x60" :=
  claim_C7 "\x60\x60\x60bash\ngcloud run deploy svc\n\x60\x60\x60" (by decide) (by decide)

/-- C10: for every prompt whose detected service is not `iam` and in which no
`ACTION_HINTS` phrase occurs, `pick_action` falls back to `describe`, the key
`(service, "describe")` exists in `TEMPLATES` for every non-iam service, and
`generate` returns that describe template rather than the missing-template
message. -/
theorem claim_C10 (t svc : String)
    (hs : Simplified.pick_service t = some svc)
    (hni : svc ≠ "iam")
    (hna : ∀ p ∈ Simplified.ACTION_HINTS, ∀ hint ∈ p.2, pyIn hint (pyLower t) = false) :
    Simplified.pick_action svc t = "describe" ∧
    ∃ tmpl, Simplified.lookupTemplate (svc, "describe") = some tmpl ∧
      Simplified.generate t = tmpl := by
  have hact : Simplified.pick_action svc t = "describe" := by
    rw [Simplified.pick_action, if_neg hni]
    have hfil : Simplified.ACTION_HINTS.filter
        (fun p => p.2.any (fun hint => pyIn hint (pyLower t))) = [] := by
      rw [List.filter_eq_nil_iff]
      intro p hp hany
      rcases List.any_eq_true.mp hany with ⟨hint, hmem, hin⟩
      rw [hna p hp hint hmem] at hin
      exact Bool.false_ne_true hin
    rw [hfil]
    rfl
  refine ⟨hact, ?_⟩
  obtain ⟨p, hpfind, hps⟩ := Option.map_eq_some'.mp hs
  have hpmem := List.mem_of_find?_eq_some hpfind
  subst hps
  simp only [Simplified.SERVICE_HINTS, List.mem_cons, List.not_mem_nil, or_false] at hpmem
  rcases hpmem with hp | hp | hp | hp | hp | hp <;> subst hp <;>
    dsimp only at hact hni hs ⊢
  · exact ⟨_, rfl, by rw [Simplified.generate, hs]; dsimp only; rw [hact]; rfl⟩
  · exact ⟨_, rfl, by rw [Simplified.generate, hs]; dsimp only; rw [hact]; rfl⟩
  · exact ⟨_, rfl, by rw [Simplified.generate, hs]; dsimp only; rw [hact]; rfl⟩
  · exact ⟨_, rfl, by rw [Simplified.generate, hs]; dsimp only; rw [hact]; rfl⟩
  · exact ⟨_, rfl, by rw [Simplified.generate, hs]; dsimp only; rw [hact]; rfl⟩
  · exact absurd rfl hni

/-- C10 witness: the prompt `"cloud run"` names a service and no action
hint, so `generate` returns the Cloud Run describe template. -/
theorem claim_C10_witness :
    Simplified.pick_action "cloud_run" "cloud run" = "describe" ∧
    ∃ tmpl, Simplified.lookupTemplate ("cloud_run", "describe") = some tmpl ∧
      Simplified.generate "cloud run" = tmpl :=
  claim_C10 "cloud run" "cloud_run" (by decide) (by decide) (by decide)

/-- C4 counterexample: the claim says a failed help probe makes the validator
move on to a *shorter* prefix.  With an oracle failing every probe, the
command `"gcloud a b"` is probed first at `["a"]` and then at the longer
`["a", "b"]`, so the probed prefixes are not of decreasing length. -/
theorem claim_C4_counterexample :
    Claude45.probed (fun _ => (false, "err"))
        (Claude45.candPrefixes (pySplit (Claude45.stripLeadingGcloud "gcloud a b"))) =
      [["a"], ["a", "b"]] ∧
    ¬ List.Pairwise (fun p q : List String => q.length < p.length)
      (Claude45.probed (fun _ => (false, "err"))
        (Claude45.candPrefixes (pySplit (Claude45.stripLeadingGcloud "gcloud a b")))) := by
  refine ⟨by decide, ?_⟩
  intro hpw
  rw [(by decide : Claude45.probed (fun _ => (false, "err"))
      (Claude45.candPrefixes (pySplit (Claude45.stripLeadingGcloud "gcloud a b"))) =
      [["a"], ["a", "b"]])] at hpw
  have hlt := List.rel_of_pairwise_cons hpw (List.mem_cons_self _ _)
  simp at hlt

/-- C4 (amended): a failed help probe makes `_validate_command_syntax` move on
to a *longer* prefix (each successively probed non-flag token slice extends
the previous one); the full command is validated against the help text of any
probed prefix whose help succeeds (the first such one, at which the loop
stops); and the invalid-structure error is returned exactly when help fails
for every probed prefix. -/
theorem claim_C4 (help : String → Bool × String) (cmd : String)
    (hp : pySplit (Claude45.stripLeadingGcloud cmd) ≠ []) :
    List.Pairwise (· <+: ·)
      (Claude45.probed help
        (Claude45.candPrefixes (pySplit (Claude45.stripLeadingGcloud cmd)))) ∧
    ((∀ c ∈ Claude45.probed help
        (Claude45.candPrefixes (pySplit (Claude45.stripLeadingGcloud cmd))),
        (help (joinWith " " c)).1 = false) →
      Claude45._validate_command_structure help cmd =
        (false, "Invalid gcloud command structure: " ++ Claude45.stripLeadingGcloud cmd)) ∧
    (Claude45._validate_command_structure help cmd =
        (false, "Invalid gcloud command structure: " ++ Claude45.stripLeadingGcloud cmd) →
      ∀ c ∈ Claude45.probed help
        (Claude45.candPrefixes (pySplit (Claude45.stripLeadingGcloud cmd))),
        (help (joinWith " " c)).1 = false) ∧
    (∀ c ∈ Claude45.probed help
        (Claude45.candPrefixes (pySplit (Claude45.stripLeadingGcloud cmd))),
      (help (joinWith " " c)).1 = true →
      Claude45._validate_command_structure help cmd =
        Claude45._validate_full_command (Claude45.stripLeadingGcloud cmd)
          (help (joinWith " " c)).2) := by
  have hemp : (pySplit (Claude45.stripLeadingGcloud cmd)).isEmpty = false := by
    cases hx : pySplit (Claude45.stripLeadingGcloud cmd) with
    | nil => exact absurd hx hp
    | cons a as => rfl
  have hvs : Claude45._validate_command_structure help cmd =
      Claude45.loopResult help (Claude45.stripLeadingGcloud cmd)
        (Claude45.candPrefixes (pySplit (Claude45.stripLeadingGcloud cmd))) := by
    rw [Claude45._validate_command_structure, hemp]
    rfl
  refine ⟨Claude45.pairwise_probed (Claude45.pairwise_candPrefixes _), ?_, ?_, ?_⟩
  · intro hall
    have hall2 : ∀ c ∈ Claude45.candPrefixes (pySplit (Claude45.stripLeadingGcloud cmd)),
        (help (joinWith " " c)).1 = false := by
      rw [← Claude45.probed_eq_of_all_fail hall]
      exact hall
    rw [hvs]
    exact Claude45.loopResult_all_fail hall2
  · intro h c hc
    rw [hvs] at h
    exact Claude45.loopResult_struct_imp h c hc
  · intro c hc hs
    rw [hvs]
    exact Claude45.loopResult_success_mem hc hs

/-- C4 witness: with an oracle that only knows the group `run`, validating
`"gcloud run deploy"` probes `["run"]` successfully and validates the full
command against that help text. -/
theorem claim_C4_witness :
    Claude45._validate_command_structure
        (fun s => if s = "run" then (true, "FLAGS") else (false, "no"))
        "gcloud run deploy" =
      Claude45._validate_full_command "run deploy" "FLAGS" :=
  (claim_C4 (fun s => if s = "run" then (true, "FLAGS") else (false, "no"))
      "gcloud run deploy" (by decide)).2.2.2 ["run"] (by decide) (by decide)

/-- C5: `generate_command` retries at most `max_iterations` times; the
previous error is appended verbatim to the next prompt; when every iteration
fails to validate it returns the failure dictionary naming `max_iterations`
attempts together with the last stored error; and when some iteration is the
first to validate it returns success with that cleaned command and the
one-based iteration count. -/
theorem claim_C5 (help : String → Bool × String)
    (gen : Nat → String → Except String String) (user : String) (n : Nat) :
    (∀ e : String, Claude45._create_generation_prompt user (some e) =
      Claude45._create_generation_prompt user none ++
        ("\nPREVIOUS ATTEMPT FAILED with error:\n" ++ e ++
          "\n\nPlease correct the command and try again.\n")) ∧
    (∀ k : Nat, (Claude45.generate_command help gen user n).iterations = some k →
      1 ≤ k ∧ k ≤ n) ∧
    ((∀ j, j < n → Claude45.validatesAt help gen user j = false) →
      Claude45.generate_command help gen user n =
        ⟨false, none,
          "Failed to generate valid command after " ++ toString n ++ " attempts",
          none, some (Claude45.prevErrAt help gen user n)⟩) ∧
    (∀ j0, j0 < n → Claude45.validatesAt help gen user j0 = true →
      (∀ j, j < j0 → Claude45.validatesAt help gen user j = false) →
      Claude45.generate_command help gen user n =
        ⟨true, some (Claude45.commandAt help gen user j0),
          "Command generated and validated successfully", some (j0 + 1), none⟩) := by
  refine ⟨fun e => rfl, ?_, ?_, ?_⟩
  · intro k h
    rw [Claude45.generate_command] at h
    obtain ⟨i, hi, hk⟩ := Claude45.genLoop_iterations_bound h
    rw [List.mem_range] at hi
    omega
  · intro hall
    have h0 := @Claude45.genLoop_all_fail help gen user n n 0
      (fun j _ hj2 => hall j (by omega))
    simp only [Nat.zero_add] at h0
    rw [Claude45.generate_command, List.range_eq_range']
    have hpe : Claude45.prevErrAt help gen user 0 = none := rfl
    rw [← hpe]
    exact h0
  · intro j0 hj0 hv hprev
    have h0 := @Claude45.genLoop_first_success help gen user n n 0 j0
      (by omega) (by omega) hv (fun j _ hj2 => hprev j hj2)
    rw [Claude45.generate_command, List.range_eq_range']
    have hpe : Claude45.prevErrAt help gen user 0 = none := rfl
    rw [← hpe]
    exact h0

/-- C5 witness: with a generator that always raises `"boom"` and one allowed
iteration, the loop returns the failure dictionary carrying the stored
exception message. -/
theorem claim_C5_witness :
    Claude45.generate_command (fun _ => (false, "x")) (fun _ _ => .error "boom") "u" 1 =
      ⟨false, none, "Failed to generate valid command after 1 attempts", none,
        some (some "boom")⟩ :=
  (claim_C5 (fun _ => (false, "x")) (fun _ _ => .error "boom") "u" 1).2.2.1
    (fun _ _ => rfl)

/-- C3: `score_candidate` computes exactly 0.55 times the Jaccard overlap of
non-verb tokens plus 0.35 times the (oracle) SequenceMatcher ratio of the
joined prompt tokens against the path, plus the 0.5 / 0.35 / 0 verb bonus;
and `choose_candidates` returns the top-K scored pairs in descending score
order, the first returned candidate scoring at least as high as every index
entry. -/
theorem claim_C3 (smr : String → String → ℚ)
    (index : List (String × GPT5Pro.CommandSpec)) (prompt : String) (topk : Nat)
    (pts : List String) (path : String)
    (hne : index ≠ []) (hk : 1 ≤ topk) :
    GPT5Pro.score_candidate smr pts path =
      0.55 * GPT5Pro.specJaccard pts (pySplit path) +
      0.35 * smr (joinWith " " pts) path +
      GPT5Pro.specVerbBonus pts (pySplit path) ∧
    List.Pairwise (fun a b : GPT5Pro.CommandSpec × ℚ => b.2 ≤ a.2)
      (GPT5Pro.choose_candidates smr index prompt topk) ∧
    ∃ first rest, GPT5Pro.choose_candidates smr index prompt topk = first :: rest ∧
      ∀ ps ∈ index,
        GPT5Pro.score_candidate smr
          (GPT5Pro.canonicalize_tokens (GPT5Pro.tokenize prompt)) ps.1 ≤ first.2 := by
  refine ⟨?_, ?_, ?_⟩
  · simp only [GPT5Pro.score_candidate, GPT5Pro.specJaccard]
    rw [← GPT5Pro.verb_bonus_eq pts (pySplit path)]
  · rw [GPT5Pro.choose_candidates]
    exact List.Pairwise.sublist (List.take_sublist _ _) (GPT5Pro.sorted_sortDesc _)
  · set tokens := GPT5Pro.canonicalize_tokens (GPT5Pro.tokenize prompt) with htok
    set scored := index.map
      (fun ps => (ps.2, GPT5Pro.score_candidate smr tokens ps.1)) with hsc
    have hsne : scored ≠ [] := by
      rw [hsc]
      intro hmm
      rw [List.map_eq_nil_iff] at hmm
      exact hne hmm
    have hperm := GPT5Pro.sortDesc_perm scored
    have hdne : GPT5Pro.sortDesc scored ≠ [] := by
      intro hmm
      have hlen := hperm.length_eq
      rw [hmm] at hlen
      simp only [List.length_nil] at hlen
      exact hsne (List.length_eq_zero.mp hlen.symm)
    obtain ⟨f, tl, hsd⟩ := List.exists_cons_of_ne_nil hdne
    obtain ⟨m, rfl⟩ : ∃ m, topk = m + 1 := ⟨topk - 1, by omega⟩
    refine ⟨f, tl.take m, ?_, ?_⟩
    · rw [GPT5Pro.choose_candidates, ← htok, ← hsc, hsd, List.take_succ_cons]
    · intro ps hps
      have hmem : (ps.2, GPT5Pro.score_candidate smr tokens ps.1) ∈ scored := by
        rw [hsc]
        exact List.mem_map.mpr ⟨ps, hps, rfl⟩
      have hmem2 : (ps.2, GPT5Pro.score_candidate smr tokens ps.1) ∈ f :: tl := by
        rw [← hsd]
        exact hperm.mem_iff.mpr hmem
      have hsorted := GPT5Pro.sorted_sortDesc scored
      rw [hsd] at hsorted
      rcases List.mem_cons.mp hmem2 with he | ht
      · rw [show f = (ps.2, GPT5Pro.score_candidate smr tokens ps.1) from he.symm]
      · exact List.rel_of_pairwise_cons hsorted ht

/-- C3 witness: the scoring formula evaluated at a concrete prompt-token list
and candidate path, obtained by applying the claim at a singleton index. -/
theorem claim_C3_witness :
    GPT5Pro.score_candidate (fun _ _ => 0) ["list", "instances"] "compute instances list" =
      0.55 * GPT5Pro.specJaccard ["list", "instances"] (pySplit "compute instances list") +
      0.35 * (fun _ _ => (0 : ℚ)) (joinWith " " ["list", "instances"])
        "compute instances list" +
      GPT5Pro.specVerbBonus ["list", "instances"] (pySplit "compute instances list") :=
  (claim_C3 (fun _ _ => 0) [("run", ⟨"run", "ga", [], [], ""⟩)] "x" 1
      ["list", "instances"] "compute instances list" (by simp) (by omega)).1


/-- C8: `render_command` emits `gcloud`, the release token only for beta or
alpha, the command-path tokens, at most the first two positionals lowercased
in angle brackets, each supported preferred flag with its canonical bracketed
placeholder in the order region, zone, location, project, and finally
`--format=json` when `--format` is supported and no earlier token starts with
`--format`. -/
theorem claim_C8 (spec : GPT5Pro.CommandSpec) :
    GPT5Pro.render_command spec = GPT5Pro.specRenderShape spec := by
  have hfront : GPT5Pro.PREFERRED_FLAGS.foldl
      (fun acc fl =>
        if spec.flags.contains fl then acc ++ [fl ++ "=" ++ GPT5Pro.placeholderFor fl]
        else acc)
      ((if spec.release = "beta" ∨ spec.release = "alpha"
        then ["gcloud"] ++ [spec.release] else ["gcloud"])
        ++ pySplit spec.path
        ++ (spec.positionals.take 2).map (fun pos => "<" ++ pyLower pos ++ ">")) =
      GPT5Pro.shapeFront spec := by
    simp only [GPT5Pro.PREFERRED_FLAGS, List.foldl_cons, List.foldl_nil,
      GPT5Pro.shapeFront]
    by_cases h1 : spec.release = "beta" ∨ spec.release = "alpha" <;>
      by_cases h2 : "--region" ∈ spec.flags <;>
      by_cases h3 : "--zone" ∈ spec.flags <;>
      by_cases h4 : "--location" ∈ spec.flags <;>
      by_cases h5 : "--project" ∈ spec.flags <;>
      simp [h1, h2, h3, h4, h5, GPT5Pro.placeholderFor, List.append_assoc]
  rw [GPT5Pro.render_command, hfront, GPT5Pro.specRenderShape, GPT5Pro.renderFormatStep]
  split_ifs with hf <;> simp

/-- C9: `validate_command_string` never reports a gcloud-wide flag as
unknown: when the help lookup succeeds no wide flag occurs in the
unknown-flags list, and a command all of whose `--` tokens key to wide flags
validates as `(True, "OK")`. -/
theorem claim_C9 (slex : String → List String)
    (run : List String → Nat × String × String) (cmd : String)
    (hrc : (run (GPT5Pro.vcsBase (slex cmd) ++ ["--help"])).1 = 0) :
    (∀ f ∈ GPT5Pro.GCLOUD_WIDE_FLAGS,
      f ∉ GPT5Pro.vcsUnknown (slex cmd)
        (GPT5Pro.GCLOUD_WIDE_FLAGS ++
          GPT5Pro.scrapeFlagsFromHelp
            (run (GPT5Pro.vcsBase (slex cmd) ++ ["--help"])).2.1)) ∧
    ((∀ t ∈ slex cmd, pyStartsWith t "--" = true →
        GPT5Pro.keyOf t ∈ GPT5Pro.GCLOUD_WIDE_FLAGS) →
      GPT5Pro.validate_command_string slex run cmd = (true, "OK")) := by
  constructor
  · intro f hf hmem
    rw [GPT5Pro.vcsUnknown] at hmem
    rcases List.mem_filter.mp hmem with ⟨_, hnc⟩
    have hin : f ∈ GPT5Pro.GCLOUD_WIDE_FLAGS ++
        GPT5Pro.scrapeFlagsFromHelp
          (run (GPT5Pro.vcsBase (slex cmd) ++ ["--help"])).2.1 :=
      List.mem_append.mpr (Or.inl hf)
    have hcontains : (GPT5Pro.GCLOUD_WIDE_FLAGS ++
        GPT5Pro.scrapeFlagsFromHelp
          (run (GPT5Pro.vcsBase (slex cmd) ++ ["--help"])).2.1).contains f = true := by
      simpa using hin
    rw [hcontains] at hnc
    simp at hnc
  · intro hall
    have hunk : GPT5Pro.vcsUnknown (slex cmd)
        (GPT5Pro.GCLOUD_WIDE_FLAGS ++
          GPT5Pro.scrapeFlagsFromHelp
            (run (GPT5Pro.vcsBase (slex cmd) ++ ["--help"])).2.1) = [] := by
      rw [GPT5Pro.vcsUnknown, List.filter_eq_nil_iff]
      intro k hk
      rcases List.mem_map.mp hk with ⟨t, ht, hkt⟩
      rcases List.mem_filter.mp ht with ⟨htm, hts⟩
      have hw := hall t htm hts
      rw [← hkt]
      have himp : GPT5Pro.keyOf t ∉ GPT5Pro.GCLOUD_WIDE_FLAGS →
          GPT5Pro.keyOf t ∈ GPT5Pro.scrapeFlagsFromHelp
            (run (GPT5Pro.vcsBase (slex cmd) ++ ["--help"])).2.1 :=
        fun hns => absurd hw hns
      simpa using himp
    rw [GPT5Pro.validate_command_string, hrc, hunk]
    simp

/-- C9 witness: a command whose only flag is the wide flag `--project`
validates as OK once the help lookup succeeds. -/
theorem claim_C9_witness :
    GPT5Pro.validate_command_string pySplit (fun _ => (0, "", ""))
        "gcloud run --project=x" = (true, "OK") :=
  (claim_C9 pySplit (fun _ => (0, "", "")) "gcloud run --project=x" rfl).2 (by decide)
